import Mathlib

/-!
Verification of the fund-lens-api query service (shallow embedding).

The embedding models the Python source of `fund_lens_api`:
  * SQL rows are Lean structures; tables and materialized views are lists of rows.
  * `Decimal` / SQL numeric amounts are modelled as `Int` (exact values);
    Python `float` results of `float(...)` conversions are modelled as `Rat`.
  * Dates are modelled as `Nat` (an abstract totally ordered day number).
  * SQL `ILIKE '%pat%'` is case-insensitive substring containment.
  * A SQL result set is a list; `ORDER BY` is a deterministic stable sort
    (SQL leaves tie order unspecified; both code paths of the service use
    the same comparator, so one fixed choice is adequate).
  * Fallible Python operations (KeyError on dict indexing,
    `scalar_one_or_none` raising on multiple rows) return `Except`.
-/

/-! ## String utilities: SQL LIKE / ILIKE, upper/lower, lexicographic order -/

def lowerChars (s : String) : List Char := s.data.map Char.toLower

def upperChars (s : String) : List Char := s.data.map Char.toUpper

def upperStr (s : String) : String := ⟨s.data.map Char.toUpper⟩

/-- Boolean prefix test on character lists. -/
def isPrefixB : List Char → List Char → Bool
  | [], _ => true
  | _ :: _, [] => false
  | p :: ps, c :: cs => p == c && isPrefixB ps cs

/-- Boolean substring containment on character lists. -/
def containsSub (pat : List Char) : List Char → Bool
  | [] => isPrefixB pat []
  | c :: cs => isPrefixB pat (c :: cs) || containsSub pat cs

/-- SQL `hay ILIKE '%pat%'`: case-insensitive substring match. -/
def sqlIlike (hay pat : String) : Bool := containsSub (lowerChars pat) (lowerChars hay)

/-- SQL `s LIKE '%pat%'` after `UPPER(...)` on both sides, used for the
memo-text exclusions in the live aggregation path. -/
def sqlUpperLike (hay pat : String) : Bool := containsSub (upperChars pat) (upperChars hay)

/-- SQL `s LIKE '%E'`: the string ends with the character `E`. -/
def endsWithE (s : String) : Bool :=
  match s.data.reverse with
  | [] => false
  | c :: _ => c == 'E'

/-- Boolean lexicographic order on character lists (used for `ORDER BY name`). -/
def charsLe : List Char → List Char → Bool
  | [], _ => true
  | _ :: _, [] => false
  | a :: as_, b :: bs => if a == b then charsLe as_ bs else a.toNat ≤ b.toNat

def strLe (a b : String) : Bool := charsLe a.data b.data

/-- Python truthiness of an optional string argument (`if state:` is False
for both `None` and the empty string). -/
def optStrTruthy : Option String → Bool
  | none => false
  | some s => !s.data.isEmpty

/-! ## Deterministic stable sort (model of SQL ORDER BY) -/

def insertSorted (le : α → α → Bool) (x : α) : List α → List α
  | [] => [x]
  | y :: ys => if le x y then x :: y :: ys else y :: insertSorted le x ys

def sortRows (le : α → α → Bool) : List α → List α
  | [] => []
  | x :: xs => insertSorted le x (sortRows le xs)

/-! ## Aggregate folds used by the SQL aggregation queries -/

/-- Combine two optional values with `min`; `none` is the identity
(SQL `MIN` ignores absent rows). -/
def omin : Option Nat → Option Nat → Option Nat
  | none, b => b
  | some a, none => some a
  | some a, some b => some (min a b)

def omax : Option Nat → Option Nat → Option Nat
  | none, b => b
  | some a, none => some a
  | some a, some b => some (max a b)

/-- SQL `MIN` over a result column: `none` on an empty set. -/
def listMinO (l : List Nat) : Option Nat := l.foldr (fun x acc => omin (some x) acc) none

/-- SQL `MAX` over a result column: `none` on an empty set. -/
def listMaxO (l : List Nat) : Option Nat := l.foldr (fun x acc => omax (some x) acc) none

/-! ## schemas/common.py -/

/-- `PaginationParams` (schemas/common.py): query parameters with pydantic
bounds `page >= 1`, `1 <= page_size <= 1000`. Fields are integers; the
validator below is the pydantic `Field(ge=..., le=...)` machinery. -/
structure PaginationParams where
  page : Int
  page_size : Int
  deriving Repr, DecidableEq

namespace PaginationParams

/-- Pydantic validation of `PaginationParams`: accepts the raw query values
exactly when they satisfy the declared bounds. -/
def validate (page page_size : Int) : Option PaginationParams :=
  if 1 ≤ page ∧ 1 ≤ page_size ∧ page_size ≤ 1000 then some ⟨page, page_size⟩ else none

/-- The `offset` property: `(self.page - 1) * self.page_size`. -/
def offset (p : PaginationParams) : Int := (p.page - 1) * p.page_size

end PaginationParams

/-- `PaginationMeta` (schemas/common.py). -/
structure PaginationMeta where
  page : Nat
  page_size : Nat
  total_items : Nat
  total_pages : Nat
  has_next : Bool
  has_prev : Bool
  deriving Repr, DecidableEq

/-- `create_pagination_meta` (schemas/common.py lines 81-96). -/
def create_pagination_meta (page page_size total_items : Nat) : PaginationMeta :=
  let total_pages := if 0 < total_items then (total_items + page_size - 1) / page_size else 0
  { page := page
    page_size := page_size
    total_items := total_items
    total_pages := total_pages
    has_next := decide (page < total_pages)
    has_prev := decide (1 < page) }

/-! ## field_selector.py -/

/-- A Python value as handled by `apply_field_selection`: atoms, dictionaries
and pydantic `BaseModel` instances (whose `model_dump()` is their field
dictionary). -/
inductive PyValue where
  | int (n : Int)
  | str (s : String)
  | vdict (entries : List (String × PyValue))
  | vmodel (entries : List (String × PyValue))
  deriving Repr

abbrev PyDict := List (String × PyValue)

/-- Python `d[k]` lookup / `k in d` membership (first binding wins; Python
dicts have unique keys, association lists model them). -/
def dictGet (d : PyDict) (k : String) : Option PyValue :=
  match d.find? (fun e => e.fst == k) with
  | some e => some e.snd
  | none => none

/-- Python `d[k] = v`: replace the binding if present, else append. -/
def dictSet (d : PyDict) (k : String) (v : PyValue) : PyDict :=
  match d with
  | [] => [(k, v)]
  | e :: rest => if e.fst == k then (k, v) :: rest else e :: dictSet rest k v

/-- Python `field.split(".", 1)`: the part before the first dot and the rest. -/
def splitFirstDot (f : String) : String × String :=
  let cs := f.data
  let pre := cs.takeWhile (fun c => c ≠ '.')
  let post := (cs.dropWhile (fun c => c ≠ '.')).drop 1
  (⟨pre⟩, ⟨post⟩)

def hasDot (f : String) : Bool := f.data.any (fun c => c == '.')

/-- One iteration of the `for field in fields` loop body of `_filter_dict`
(field_selector.py lines 61-95), threading the `result` dictionary. -/
def filterDictStep (data : PyDict) (result : PyDict) (field : String) : PyDict :=
  if hasDot field then
    let parts := splitFirstDot field
    let parent_field := parts.fst
    let nested_field := parts.snd
    match dictGet data parent_field with
    | none => result
    | some parent_value =>
      -- `if parent_field not in result:` initialisation step
      let init : PyDict × Bool :=
        match dictGet result parent_field with
        | some _ => (result, true)
        | none =>
          match parent_value with
          | .vdict _ => (dictSet result parent_field (.vdict []), true)
          | .vmodel _ => (dictSet result parent_field (.vdict []), true)
          | v => (dictSet result parent_field v, false)  -- `continue`
      if init.snd then
        let result1 := init.fst
        match parent_value with
        | .vdict pd =>
          match dictGet pd nested_field with
          | some nv =>
            let cur := match dictGet result1 parent_field with
              | some (.vdict entries) => PyValue.vdict entries
              | _ => PyValue.vdict []
            match cur with
            | .vdict entries => dictSet result1 parent_field (.vdict (dictSet entries nested_field nv))
            | _ => result1
          | none => result1
        | .vmodel pd =>
          match dictGet pd nested_field with
          | some nv =>
            let cur := match dictGet result1 parent_field with
              | some (.vdict entries) => PyValue.vdict entries
              | _ => PyValue.vdict []
            match cur with
            | .vdict entries => dictSet result1 parent_field (.vdict (dictSet entries nested_field nv))
            | _ => result1
          | none => result1
        | _ => result1
      else init.fst
  else
    match dictGet data field with
    | some v => dictSet result field v
    | none => result

/-- `_filter_dict` (field_selector.py lines 54-97). The `fields` set is
modelled as the list of elements in iteration order. -/
def filter_dict (data : PyDict) (fields : List String) : PyDict :=
  fields.foldl (filterDictStep data) []

/-- Input to `apply_field_selection`: a dict or a pydantic model. -/
inductive FsItem where
  | ofDict (d : PyDict)
  | ofModel (d : PyDict)
  deriving Repr

/-- `item.model_dump() if isinstance(item, BaseModel) else item`. -/
def FsItem.dump : FsItem → PyDict
  | .ofDict d => d
  | .ofModel d => d

inductive FsData where
  | one (i : FsItem)
  | many (l : List FsItem)
  deriving Repr

inductive FsOut where
  | one (d : PyDict)
  | many (l : List PyDict)
  deriving Repr

/-- `apply_field_selection` (field_selector.py lines 10-51). -/
def apply_field_selection (data : FsData) (fields : Option (List String)) : FsOut :=
  match fields with
  | none =>
    match data with
    | .many l => .many (l.map FsItem.dump)
    | .one i => .one i.dump
  | some fs =>
    if fs.isEmpty then
      match data with
      | .many l => .many (l.map FsItem.dump)
      | .one i => .one i.dump
    else
      match data with
      | .many l => .many (l.map (fun item => filter_dict item.dump fs))
      | .one i => .one (filter_dict i.dump fs)

def fsExampleDict : PyDict := [("id", .int 1), ("name", .str "Jo"), ("zip", .str "21201")]

def fsExampleFields : List String := ["id", "name", "missing"]

/-! ## Data model: gold tables and materialized views (fund_lens_models.gold,
an external collaborator of this repository; fields are those the service
code reads) -/

structure GoldContributor where
  id : Nat
  name : String
  first_name : Option String := none
  last_name : Option String := none
  city : Option String := none
  state : Option String := none
  zip : Option String := none
  entity_type : String := "INDIVIDUAL"
  employer : Option String := none
  occupation : Option String := none
  match_confidence : Option Rat := none
  deriving Repr, DecidableEq

structure GoldCandidate where
  id : Nat
  name : String
  office : String := "H"
  state : Option String := none
  district : Option String := none
  party : Option String := none
  is_active : Bool := true
  deriving Repr, DecidableEq

structure GoldCommittee where
  id : Nat
  name : String
  committee_type : String := "PAC"
  state : Option String := none
  party : Option String := none
  candidate_id : Option Nat := none
  is_active : Bool := true
  deriving Repr, DecidableEq

structure GoldContribution where
  id : Nat
  contributor_id : Nat
  recipient_candidate_id : Option Nat := none
  recipient_committee_id : Option Nat := none
  amount : Int := 0
  contribution_date : Nat := 0
  contribution_type : String := ""
  is_earmark_receipt : Bool := false
  source_transaction_id : String := ""
  memo_text : Option String := none
  deriving Repr, DecidableEq

/-- A row of the `mv_contributor_candidate_stats` materialized view. -/
structure MvContributorCandidateStats where
  candidate_id : Nat
  contributor_id : Nat
  contribution_count : Nat
  total_amount : Int
  first_contribution_date : Option Nat
  last_contribution_date : Option Nat
  deriving Repr, DecidableEq

/-- A row of the `mv_contributor_committee_stats` materialized view. -/
structure MvContributorCommitteeStats where
  committee_id : Nat
  contributor_id : Nat
  contribution_count : Nat
  total_amount : Int
  first_contribution_date : Option Nat
  last_contribution_date : Option Nat
  deriving Repr, DecidableEq

/-- A row of the `mv_contributor_stats` materialized view. -/
structure MvContributorStats where
  contributor_id : Nat
  total_contributions : Nat
  total_amount : Int
  unique_recipients : Nat
  avg_contribution : Rat
  first_contribution_date : Option Nat
  last_contribution_date : Option Nat
  deriving Repr, DecidableEq

/-- A row of the `mv_candidate_stats` materialized view (read by
services/state.py). -/
structure MvCandidateStats where
  candidate_id : Nat
  total_amount : Int
  total_contributions : Nat
  unique_contributors : Nat
  deriving Repr, DecidableEq

/-- The database state visible to the service. -/
structure DB where
  candidates : List GoldCandidate := []
  committees : List GoldCommittee := []
  contributors : List GoldContributor := []
  contributions : List GoldContribution := []
  mv_contributor_candidate_stats : List MvContributorCandidateStats := []
  mv_contributor_committee_stats : List MvContributorCommitteeStats := []
  mv_contributor_stats : List MvContributorStats := []
  mv_candidate_stats : List MvCandidateStats := []
  deriving Repr

/-- Exceptions the embedded service code can raise: `KeyError` from unguarded
dict indexing, `MultipleResultsFound` from `scalar_one_or_none`/`one_or_none`. -/
inductive SvcError where
  | keyError
  | multipleResults
  deriving Repr, DecidableEq

/-- SQLAlchemy `scalar_one_or_none` / `one_or_none` over a result list. -/
def oneOrNone : List α → Except SvcError (Option α)
  | [] => .ok none
  | [x] => .ok (some x)
  | _ => .error .multipleResults

/-! ## schemas/contributor.py response models -/

structure ContributionSimple where
  id : Nat
  contribution_date : Nat
  amount : Int
  contribution_type : String
  deriving Repr, DecidableEq

structure ContributorWithAggregates where
  contributor_id : Nat
  contributor_name : String
  city : Option String
  state : Option String
  zip : Option String
  entity_type : String
  employer : Option String
  occupation : Option String
  total_amount : Int
  contribution_count : Nat
  first_contribution_date : Option Nat
  last_contribution_date : Option Nat
  contributions : Option (List ContributionSimple)
  deriving Repr, DecidableEq

structure CandidateSummary where
  id : Nat
  name : String
  office : String
  state : Option String
  district : Option String
  party : Option String
  deriving Repr, DecidableEq

structure CommitteeSummary where
  id : Nat
  name : String
  committee_type : String
  state : Option String
  candidate_id : Option Nat
  candidate_name : Option String
  deriving Repr, DecidableEq

structure ContributorsSummary where
  total_contributors : Nat
  total_amount_raised : Int
  total_contributions : Nat
  first_contribution : Option Nat
  last_contribution : Option Nat
  deriving Repr, DecidableEq

/-- The inline `meta` dictionary built at the end of
`get_contributors_by_candidate` / `..._by_committee`. -/
structure PageMetaDict where
  page : Nat
  page_size : Nat
  total_items : Nat
  total_pages : Nat
  has_next : Bool
  has_prev : Bool
  deriving Repr, DecidableEq

structure ContributorsByCandidateResponse where
  candidate : CandidateSummary
  summary : ContributorsSummary
  contributors : List ContributorWithAggregates
  meta : PageMetaDict
  deriving Repr, DecidableEq

structure ContributorsByCommitteeResponse where
  committee : CommitteeSummary
  summary : ContributorsSummary
  contributors : List ContributorWithAggregates
  meta : PageMetaDict
  deriving Repr, DecidableEq

structure ContributorStats where
  contributor_id : Nat
  total_contributions : Nat
  total_amount : Rat
  unique_recipients : Nat
  avg_contribution : Rat
  first_contribution_date : Option Nat
  last_contribution_date : Option Nat
  deriving Repr, DecidableEq

structure CandidateStats where
  candidate_id : Nat
  total_contributions : Nat
  total_amount : Rat
  unique_contributors : Nat
  avg_contribution : Rat
  deriving Repr, DecidableEq

/-! ## ContributorService.get_contributors_by_candidate / _by_committee
(services/contributor.py lines 316-990) -/

/-- The keyword arguments shared by the two contributors-by-recipient service
functions (all but the recipient id). -/
structure ContributorsByArgs where
  include_contributions : Bool := false
  sort_by : String := "total_amount"
  order : String := "desc"
  min_amount : Option Int := none
  max_amount : Option Int := none
  state : Option String := none
  entity_type : Option String := none
  date_from : Option Nat := none
  date_to : Option Nat := none
  search : Option String := none
  offset : Nat := 0
  limit : Nat := 25
  deriving Repr, DecidableEq

/-- One row of the aggregation result set (same column list in the
materialized-view query and the live aggregation query). -/
structure ContributorAggRow where
  contributor_id : Nat
  contributor_name : String
  city : Option String
  state : Option String
  zip : Option String
  entity_type : String
  employer : Option String
  occupation : Option String
  total_amount : Int
  contribution_count : Nat
  first_contribution_date : Option Nat
  last_contribution_date : Option Nat
  deriving Repr, DecidableEq

/-- `base_filters` of the live aggregation path for a candidate
(services/contributor.py lines 466-477): recipient match, conduit/earmark
exclusions, optional date bounds. -/
def candContribFilter (candidate_id : Nat) (date_from date_to : Option Nat)
    (x : GoldContribution) : Bool :=
  (x.recipient_candidate_id == some candidate_id)
  && (x.is_earmark_receipt == false)
  && !(endsWithE x.source_transaction_id)
  && !(sqlUpperLike (x.memo_text.getD "") "EARMARK")
  && !(sqlUpperLike (x.memo_text.getD "") "CONDUIT")
  && !(sqlUpperLike (x.memo_text.getD "") "ATTRIBUTION BELOW")
  && (match date_from with | some d => decide (d ≤ x.contribution_date) | none => true)
  && (match date_to with | some d => decide (x.contribution_date ≤ d) | none => true)

/-- `base_filters` of the live aggregation path for a committee
(services/contributor.py lines 811-815): recipient match and optional
date bounds only. -/
def commContribFilter (committee_id : Nat) (date_from date_to : Option Nat)
    (x : GoldContribution) : Bool :=
  (x.recipient_committee_id == some committee_id)
  && (match date_from with | some d => decide (d ≤ x.contribution_date) | none => true)
  && (match date_to with | some d => decide (x.contribution_date ≤ d) | none => true)

/-- The live aggregation result set: contributions joined to contributors,
grouped by all contributor columns, with SUM/COUNT/MIN/MAX aggregates
(services/contributor.py lines 480-507 and 818-845). -/
def liveAggRowOpt (db : DB) (baseFilter : GoldContribution → Bool)
    (gc : GoldContributor) : Option ContributorAggRow :=
  let cs := db.contributions.filter (fun x => baseFilter x && x.contributor_id == gc.id)
  match cs with
  | [] => none
  | _ :: _ =>
    some { contributor_id := gc.id
           contributor_name := gc.name
           city := gc.city
           state := gc.state
           zip := gc.zip
           entity_type := gc.entity_type
           employer := gc.employer
           occupation := gc.occupation
           total_amount := (cs.map (fun c => c.amount)).sum
           contribution_count := cs.length
           first_contribution_date := listMinO (cs.map (fun c => c.contribution_date))
           last_contribution_date := listMaxO (cs.map (fun c => c.contribution_date)) }

def liveAggRows (db : DB) (baseFilter : GoldContribution → Bool) : List ContributorAggRow :=
  db.contributors.filterMap (liveAggRowOpt db baseFilter)

/-- The join row built from a contributor row and a candidate-view row
(the SELECT column list of the materialized-view path). -/
def joinRowCand (gc : GoldContributor) (r : MvContributorCandidateStats) : ContributorAggRow :=
  { contributor_id := gc.id
    contributor_name := gc.name
    city := gc.city
    state := gc.state
    zip := gc.zip
    entity_type := gc.entity_type
    employer := gc.employer
    occupation := gc.occupation
    total_amount := r.total_amount
    contribution_count := r.contribution_count
    first_contribution_date := r.first_contribution_date
    last_contribution_date := r.last_contribution_date }

def joinRowComm (gc : GoldContributor) (r : MvContributorCommitteeStats) : ContributorAggRow :=
  { contributor_id := gc.id
    contributor_name := gc.name
    city := gc.city
    state := gc.state
    zip := gc.zip
    entity_type := gc.entity_type
    employer := gc.employer
    occupation := gc.occupation
    total_amount := r.total_amount
    contribution_count := r.contribution_count
    first_contribution_date := r.first_contribution_date
    last_contribution_date := r.last_contribution_date }

/-- The materialized-view result set for a candidate: the view restricted to
`candidate_id = :candidate_id`, joined to contributor rows
(services/contributor.py lines 352-383). -/
def mvJoinRowsCand (db : DB) (candidate_id : Nat) : List ContributorAggRow :=
  db.contributors.flatMap (fun gc =>
    ((db.mv_contributor_candidate_stats.filter (fun r => r.candidate_id == candidate_id)).filter
        (fun r => r.contributor_id == gc.id)).map (joinRowCand gc))

/-- Same join for a committee (services/contributor.py lines 698-729). -/
def mvJoinRowsComm (db : DB) (committee_id : Nat) : List ContributorAggRow :=
  db.contributors.flatMap (fun gc =>
    ((db.mv_contributor_committee_stats.filter (fun r => r.committee_id == committee_id)).filter
        (fun r => r.contributor_id == gc.id)).map (joinRowComm gc))

/-- The state/entity_type/search/min_amount/max_amount filters: both code
paths apply the same five conditions in the same order (WHERE clauses on the
materialized-view path, HAVING clauses plus outer WHERE on the live path;
`if state:` style guards are Python truthiness on optional strings). -/
def applyRowFilters (a : ContributorsByArgs) (rows : List ContributorAggRow) :
    List ContributorAggRow :=
  let r1 := match a.state with
    | some s => if s.data.isEmpty then rows else rows.filter (fun r => r.state == some s)
    | none => rows
  let r2 := match a.entity_type with
    | some s => if s.data.isEmpty then r1 else r1.filter (fun r => r.entity_type == s)
    | none => r1
  let r3 := match a.search with
    | some s => if s.data.isEmpty then r2 else r2.filter (fun r => sqlIlike r.contributor_name s)
    | none => r2
  let r4 := match a.min_amount with
    | some m => r3.filter (fun r => decide (m ≤ r.total_amount))
    | none => r3
  match a.max_amount with
  | some m => r4.filter (fun r => decide (r.total_amount ≤ m))
  | none => r4

inductive SortCol where
  | total_amount
  | contribution_count
  | name
  | first_date
  | last_date
  deriving Repr, DecidableEq

/-- `sort_column_map` of the materialized-view path for a candidate
(services/contributor.py lines 398-404). -/
def mvSortColumnMapCand : List (String × SortCol) :=
  [("total_amount", .total_amount), ("contribution_count", .contribution_count),
   ("name", .name), ("first_date", .first_date), ("last_date", .last_date)]

/-- `sort_column_map` of the live path for a candidate (lines 528-534). -/
def liveSortColumnMapCand : List (String × SortCol) :=
  [("total_amount", .total_amount), ("contribution_count", .contribution_count),
   ("name", .name), ("first_date", .first_date), ("last_date", .last_date)]

/-- `sort_column_map` of the materialized-view path for a committee
(lines 744-750). -/
def mvSortColumnMapComm : List (String × SortCol) :=
  [("total_amount", .total_amount), ("contribution_count", .contribution_count),
   ("name", .name), ("first_date", .first_date), ("last_date", .last_date)]

/-- `sort_column_map` of the live path for a committee (lines 866-872). -/
def liveSortColumnMapComm : List (String × SortCol) :=
  [("total_amount", .total_amount), ("contribution_count", .contribution_count),
   ("name", .name), ("first_date", .first_date), ("last_date", .last_date)]

/-- Python `sort_column_map[sort_by]`: raises `KeyError` when absent. -/
def lookupSortCol (m : List (String × SortCol)) (k : String) : Option SortCol :=
  match m.find? (fun e => e.fst == k) with
  | some e => some e.snd
  | none => none

/-- Comparator on nullable date columns (both paths order by the same
expression, so one fixed NULL placement is adequate). -/
def oleN : Option Nat → Option Nat → Bool
  | none, _ => true
  | some _, none => false
  | some a, some b => decide (a ≤ b)

def rowKeyLe (col : SortCol) (x y : ContributorAggRow) : Bool :=
  match col with
  | .total_amount => decide (x.total_amount ≤ y.total_amount)
  | .contribution_count => decide (x.contribution_count ≤ y.contribution_count)
  | .name => strLe x.contributor_name y.contributor_name
  | .first_date => oleN x.first_contribution_date y.first_contribution_date
  | .last_date => oleN x.last_contribution_date y.last_contribution_date

/-- `ORDER BY sort_column ASC|DESC`. -/
def rowLe (col : SortCol) (order : String) (x y : ContributorAggRow) : Bool :=
  if order == "desc" then rowKeyLe col y x else rowKeyLe col x y

/-- The summary query of the materialized-view path for a candidate
(services/contributor.py lines 451-461): COUNT/SUM/SUM/MIN/MAX over the
view rows of the candidate. -/
def mvSummaryCand (db : DB) (candidate_id : Nat) : ContributorsSummary :=
  let rs := db.mv_contributor_candidate_stats.filter (fun r => r.candidate_id == candidate_id)
  { total_contributors := rs.length
    total_amount_raised := (rs.map (fun r => r.total_amount)).sum
    total_contributions := (rs.map (fun r => r.contribution_count)).sum
    first_contribution := (rs.map (fun r => r.first_contribution_date)).foldr omin none
    last_contribution := (rs.map (fun r => r.last_contribution_date)).foldr omax none }

/-- Same summary for a committee (lines 797-807). -/
def mvSummaryComm (db : DB) (committee_id : Nat) : ContributorsSummary :=
  let rs := db.mv_contributor_committee_stats.filter (fun r => r.committee_id == committee_id)
  { total_contributors := rs.length
    total_amount_raised := (rs.map (fun r => r.total_amount)).sum
    total_contributions := (rs.map (fun r => r.contribution_count)).sum
    first_contribution := (rs.map (fun r => r.first_contribution_date)).foldr omin none
    last_contribution := (rs.map (fun r => r.last_contribution_date)).foldr omax none }

/-- The summary query of the live path (lines 550-562 and 888-900):
COUNT(DISTINCT contributor_id) / SUM / COUNT / MIN / MAX over the base-filtered
contributions. -/
def liveSummary (db : DB) (baseFilter : GoldContribution → Bool) : ContributorsSummary :=
  let cs := db.contributions.filter baseFilter
  { total_contributors := (cs.map (fun c => c.contributor_id)).dedup.length
    total_amount_raised := (cs.map (fun c => c.amount)).sum
    total_contributions := cs.length
    first_contribution := listMinO (cs.map (fun c => c.contribution_date))
    last_contribution := listMaxO (cs.map (fun c => c.contribution_date)) }

/-- Result of either branch before response assembly: the requested page of
rows, the total filtered count (the branch's COUNT query counts the same
join/aggregation under the same filter conditions), and the summary row. -/
structure BranchOut where
  rows : List ContributorAggRow
  total_count : Nat
  summary : ContributorsSummary
  deriving Repr, DecidableEq

/-- The materialized-view branch for a candidate (lines 351-461). -/
def mvBranchCand (db : DB) (candidate_id : Nat) (a : ContributorsByArgs) :
    Except SvcError BranchOut :=
  let filtered := applyRowFilters a (mvJoinRowsCand db candidate_id)
  match lookupSortCol mvSortColumnMapCand a.sort_by with
  | none => .error .keyError
  | some col =>
    let sorted := sortRows (rowLe col a.order) filtered
    .ok
      { rows := (sorted.drop a.offset).take a.limit
        total_count := (applyRowFilters a (mvJoinRowsCand db candidate_id)).length
        summary := mvSummaryCand db candidate_id }

/-- The materialized-view branch for a committee (lines 697-807). -/
def mvBranchComm (db : DB) (committee_id : Nat) (a : ContributorsByArgs) :
    Except SvcError BranchOut :=
  let filtered := applyRowFilters a (mvJoinRowsComm db committee_id)
  match lookupSortCol mvSortColumnMapComm a.sort_by with
  | none => .error .keyError
  | some col =>
    let sorted := sortRows (rowLe col a.order) filtered
    .ok
      { rows := (sorted.drop a.offset).take a.limit
        total_count := (applyRowFilters a (mvJoinRowsComm db committee_id)).length
        summary := mvSummaryComm db committee_id }

/-- The live aggregation branch (lines 463-562 for a candidate with
`candContribFilter`, lines 809-900 for a committee with `commContribFilter`). -/
def liveBranch (db : DB) (baseFilter : GoldContribution → Bool)
    (sortMap : List (String × SortCol)) (a : ContributorsByArgs) :
    Except SvcError BranchOut :=
  let filtered := applyRowFilters a (liveAggRows db baseFilter)
  match lookupSortCol sortMap a.sort_by with
  | none => .error .keyError
  | some col =>
    let sorted := sortRows (rowLe col a.order) filtered
    .ok
      { rows := (sorted.drop a.offset).take a.limit
        total_count := (applyRowFilters a (liveAggRows db baseFilter)).length
        summary := liveSummary db baseFilter }

/-- The batch contributions fetch (shared by both branches, lines 568-593 and
906-931): contributions of the page's contributors to the recipient, ordered
by contributor id ascending then date descending. -/
def fetchContributions (db : DB) (recipFilter : GoldContribution → Bool)
    (ids : List Nat) (date_from date_to : Option Nat) : List GoldContribution :=
  let cs := db.contributions.filter (fun x =>
    ids.contains x.contributor_id && recipFilter x
    && (match date_from with | some d => decide (d ≤ x.contribution_date) | none => true)
    && (match date_to with | some d => decide (x.contribution_date ≤ d) | none => true))
  sortRows (fun x y =>
    if x.contributor_id == y.contributor_id then decide (y.contribution_date ≤ x.contribution_date)
    else decide (x.contributor_id ≤ y.contributor_id)) cs

/-- Build the `ContributorWithAggregates` objects for the page (lines 564-624
and 902-962). -/
def attachContributions (db : DB) (recipFilter : GoldContribution → Bool)
    (a : ContributorsByArgs) (pageRows : List ContributorAggRow) :
    List ContributorWithAggregates :=
  let contributor_ids := pageRows.map (fun r => r.contributor_id)
  let fetched : List GoldContribution :=
    if a.include_contributions && !contributor_ids.isEmpty then
      fetchContributions db recipFilter contributor_ids a.date_from a.date_to
    else []
  pageRows.map (fun row =>
    { contributor_id := row.contributor_id
      contributor_name := row.contributor_name
      city := row.city
      state := row.state
      zip := row.zip
      entity_type := row.entity_type
      employer := row.employer
      occupation := row.occupation
      total_amount := row.total_amount
      contribution_count := row.contribution_count
      first_contribution_date := row.first_contribution_date
      last_contribution_date := row.last_contribution_date
      contributions :=
        if a.include_contributions then
          some ((fetched.filter (fun c => c.contributor_id == row.contributor_id)).map
            (fun c =>
              { id := c.id
                contribution_date := c.contribution_date
                amount := c.amount
                contribution_type := c.contribution_type }))
        else none })

/-- The inline `meta` dictionary (lines 644-651 and 982-989). -/
def pageMetaOf (offset limit total_count : Nat) : PageMetaDict :=
  { page := if 0 < limit then offset / limit + 1 else 1
    page_size := limit
    total_items := total_count
    total_pages := if 0 < limit then (total_count + limit - 1) / limit else 1
    has_next := decide (offset + limit < total_count)
    has_prev := decide (0 < offset) }

namespace ContributorService

/-- `ContributorService.get_contributors_by_candidate`
(services/contributor.py lines 316-652). -/
def get_contributors_by_candidate (db : DB) (candidate_id : Nat)
    (a : ContributorsByArgs) : Except SvcError (Option ContributorsByCandidateResponse) :=
  match oneOrNone (db.candidates.filter (fun c => c.id == candidate_id)) with
  | .error e => .error e
  | .ok none => .ok none
  | .ok (some cand) =>
    let use_materialized_view := a.date_from.isNone && a.date_to.isNone
    match (if use_materialized_view then mvBranchCand db candidate_id a
           else liveBranch db (candContribFilter candidate_id a.date_from a.date_to)
                  liveSortColumnMapCand a) with
    | .error e => .error e
    | .ok br =>
      .ok (some
        { candidate :=
            { id := cand.id
              name := cand.name
              office := cand.office
              state := cand.state
              district := cand.district
              party := cand.party }
          summary := br.summary
          contributors := attachContributions db
            (fun x => x.recipient_candidate_id == some candidate_id) a br.rows
          meta := pageMetaOf a.offset a.limit br.total_count })

/-- The candidate-name lookup of `get_contributors_by_committee`
(services/contributor.py lines 685-692). -/
def candidateNameLookup (db : DB) (committee : GoldCommittee) : Except SvcError (Option String) :=
  match committee.candidate_id with
  | some cid =>
    -- Python `if committee.candidate_id:` — falsy for both None and 0
    if cid == 0 then .ok none
    else
      match oneOrNone (db.candidates.filter (fun x => x.id == cid)) with
      | .error e => .error e
      | .ok c => .ok (c.map (fun cc => cc.name))
  | none => .ok none

/-- `ContributorService.get_contributors_by_committee`
(services/contributor.py lines 654-990). -/
def get_contributors_by_committee (db : DB) (committee_id : Nat)
    (a : ContributorsByArgs) : Except SvcError (Option ContributorsByCommitteeResponse) :=
  match oneOrNone (db.committees.filter (fun c => c.id == committee_id)) with
  | .error e => .error e
  | .ok none => .ok none
  | .ok (some committee) =>
    match candidateNameLookup db committee with
    | .error e => .error e
    | .ok candidate_name =>
      let use_materialized_view := a.date_from.isNone && a.date_to.isNone
      match (if use_materialized_view then mvBranchComm db committee_id a
             else liveBranch db (commContribFilter committee_id a.date_from a.date_to)
                    liveSortColumnMapComm a) with
      | .error e => .error e
      | .ok br =>
        .ok (some
          { committee :=
              { id := committee.id
                name := committee.name
                committee_type := committee.committee_type
                state := committee.state
                candidate_id := committee.candidate_id
                candidate_name := candidate_name }
            summary := br.summary
            contributors := attachContributions db
              (fun x => x.recipient_committee_id == some committee_id) a br.rows
            meta := pageMetaOf a.offset a.limit br.total_count })

/-- `ContributorService.get_contributor_by_id` (lines 78-82). -/
def get_contributor_by_id (db : DB) (contributor_id : Nat) :
    Except SvcError (Option GoldContributor) :=
  oneOrNone (db.contributors.filter (fun c => c.id == contributor_id))

/-- `ContributorService.get_contributor_stats` (lines 169-211). -/
def get_contributor_stats (db : DB) (contributor_id : Nat) :
    Except SvcError (Option ContributorStats) :=
  match get_contributor_by_id db contributor_id with
  | .error e => .error e
  | .ok none => .ok none
  | .ok (some _) =>
    match oneOrNone
      (db.mv_contributor_stats.filter (fun r => r.contributor_id == contributor_id)) with
    | .error e => .error e
    | .ok none =>
      .ok (some
        { contributor_id := contributor_id
          total_contributions := 0
          total_amount := 0
          unique_recipients := 0
          avg_contribution := 0
          first_contribution_date := none
          last_contribution_date := none })
    | .ok (some r) =>
      .ok (some
        { contributor_id := contributor_id
          total_contributions := r.total_contributions
          total_amount := (r.total_amount : Rat)
          unique_recipients := r.unique_recipients
          avg_contribution := r.avg_contribution
          first_contribution_date := r.first_contribution_date
          last_contribution_date := r.last_contribution_date })

/-- `ContributorFilters` (schemas/contributor.py lines 39-50). -/
structure Filters where
  state : Option String := none
  city : Option String := none
  entity_type : Option String := none
  employer : Option String := none
  occupation : Option String := none
  deriving Repr, DecidableEq

/-- `ContributorService.list_contributors` (lines 30-76): exact-match filters
for state/city/entity_type (applied whenever the value is not None), partial
ILIKE filters for employer/occupation (applied when truthy), ordered by name,
paginated; returns the page and the total filtered count. -/
def list_contributors (db : DB) (filters : Filters) (offset : Nat := 0)
    (limit : Nat := 50) : List GoldContributor × Nat :=
  let l1 := match filters.state with
    | some s => db.contributors.filter (fun c => c.state == some s)
    | none => db.contributors
  let l2 := match filters.city with
    | some s => l1.filter (fun c => c.city == some s)
    | none => l1
  let l3 := match filters.entity_type with
    | some s => l2.filter (fun c => c.entity_type == s)
    | none => l2
  let l4 := match filters.employer with
    | some s => if s.data.isEmpty then l3 else
        l3.filter (fun c => match c.employer with
          | some e => sqlIlike e s
          | none => false)
    | none => l3
  let l5 := match filters.occupation with
    | some s => if s.data.isEmpty then l4 else
        l4.filter (fun c => match c.occupation with
          | some o => sqlIlike o s
          | none => false)
    | none => l4
  let total_count := l5.length
  let page := ((sortRows (fun x y => strLe x.name y.name) l5).drop offset).take limit
  (page, total_count)

end ContributorService

namespace CandidateService

/-- `CandidateService.get_candidate_by_id` (services/candidate.py lines 136-139). -/
def get_candidate_by_id (db : DB) (candidate_id : Nat) :
    Except SvcError (Option GoldCandidate) :=
  oneOrNone (db.candidates.filter (fun c => c.id == candidate_id))

/-- `CandidateService.get_candidate_stats` (services/candidate.py lines
201-227): COUNT + coalesced SUM + COUNT(DISTINCT contributor_id) + coalesced
AVG over the candidate's contributions; `None` when the candidate is missing. -/
def get_candidate_stats (db : DB) (candidate_id : Nat) :
    Except SvcError (Option CandidateStats) :=
  match get_candidate_by_id db candidate_id with
  | .error e => .error e
  | .ok none => .ok none
  | .ok (some _) =>
    let cs := db.contributions.filter (fun x => x.recipient_candidate_id == some candidate_id)
    .ok (some
      { candidate_id := candidate_id
        total_contributions := cs.length
        total_amount := (((cs.map (fun c => c.amount)).sum : Int) : Rat)
        unique_contributors := (cs.map (fun c => c.contributor_id)).dedup.length
        avg_contribution :=
          if cs.length = 0 then 0
          else (((cs.map (fun c => c.amount)).sum : Int) : Rat) / (cs.length : Rat) })

end CandidateService

/-! ## Routers (routers/contributor.py). HTTP failures and uncaught service
exceptions are the error cases; FastAPI parameter validation (non-integer
ids, out-of-range page sizes) happens before the handler runs and is
represented by the theorems' hypotheses on the arguments. -/

inductive Failure where
  | httpError (status : Nat)
  | uncaught (e : SvcError)
  deriving Repr, DecidableEq

/-- `state.upper() if state else None` (router argument normalisation). -/
def normUpperOpt : Option String → Option String
  | none => none
  | some s => if s.data.isEmpty then none else some (upperStr s)

namespace ContributorRouter

/-- `GET /contributors/{contributor_id}` (routers/contributor.py lines
373-385); `ContributorDetail.model_validate` copies the row's fields, so the
success payload is the row. -/
def get_contributor (db : DB) (contributor_id : Nat) : Except Failure GoldContributor :=
  match ContributorService.get_contributor_by_id db contributor_id with
  | .error e => .error (.uncaught e)
  | .ok none => .error (.httpError 404)
  | .ok (some c) => .ok c

/-- `GET /contributors/{contributor_id}/stats` (lines 258-278). -/
def get_contributor_stats (db : DB) (contributor_id : Nat) :
    Except Failure ContributorStats :=
  match ContributorService.get_contributor_stats db contributor_id with
  | .error e => .error (.uncaught e)
  | .ok none => .error (.httpError 404)
  | .ok (some st) => .ok st

/-- `valid_sort_by` (routers/contributor.py line 434). -/
def valid_sort_by : List String :=
  ["total_amount", "contribution_count", "name", "first_date", "last_date"]

/-- `valid_order` (line 441). -/
def valid_order : List String := ["asc", "desc"]

/-- `GET /contributors/by-candidate/{candidate_id}` (lines 388-468). -/
def get_contributors_by_candidate (db : DB) (candidate_id : Nat)
    (page page_size : Nat) (sort_by order : String)
    (min_amount max_amount : Option Int) (state entity_type : Option String)
    (date_from date_to : Option Nat) (search : Option String)
    (include_contributions : Bool) : Except Failure ContributorsByCandidateResponse :=
  if !(valid_sort_by.contains sort_by) then .error (.httpError 400)
  else if !(valid_order.contains order) then .error (.httpError 400)
  else
    let offset := (page - 1) * page_size
    match ContributorService.get_contributors_by_candidate db candidate_id
      { include_contributions := include_contributions
        sort_by := sort_by
        order := order
        min_amount := min_amount
        max_amount := max_amount
        state := normUpperOpt state
        entity_type := normUpperOpt entity_type
        date_from := date_from
        date_to := date_to
        search := search
        offset := offset
        limit := page_size } with
    | .error e => .error (.uncaught e)
    | .ok none => .error (.httpError 404)
    | .ok (some r) => .ok r

/-- `GET /contributors/by-committee/{committee_id}` (lines 471-551). -/
def get_contributors_by_committee (db : DB) (committee_id : Nat)
    (page page_size : Nat) (sort_by order : String)
    (min_amount max_amount : Option Int) (state entity_type : Option String)
    (date_from date_to : Option Nat) (search : Option String)
    (include_contributions : Bool) : Except Failure ContributorsByCommitteeResponse :=
  if !(valid_sort_by.contains sort_by) then .error (.httpError 400)
  else if !(valid_order.contains order) then .error (.httpError 400)
  else
    let offset := (page - 1) * page_size
    match ContributorService.get_contributors_by_committee db committee_id
      { include_contributions := include_contributions
        sort_by := sort_by
        order := order
        min_amount := min_amount
        max_amount := max_amount
        state := normUpperOpt state
        entity_type := normUpperOpt entity_type
        date_from := date_from
        date_to := date_to
        search := search
        offset := offset
        limit := page_size } with
    | .error e => .error (.uncaught e)
    | .ok none => .error (.httpError 404)
    | .ok (some r) => .ok r

end ContributorRouter

namespace CandidateRouter

/-- `GET /candidates/{candidate_id}` (routers/candidate.py lines 410-422). -/
def get_candidate (db : DB) (candidate_id : Nat) : Except Failure GoldCandidate :=
  match CandidateService.get_candidate_by_id db candidate_id with
  | .error e => .error (.uncaught e)
  | .ok none => .error (.httpError 404)
  | .ok (some c) => .ok c

/-- `GET /candidates/{candidate_id}/stats` (lines 425-444). -/
def get_candidate_stats (db : DB) (candidate_id : Nat) : Except Failure CandidateStats :=
  match CandidateService.get_candidate_stats db candidate_id with
  | .error e => .error (.uncaught e)
  | .ok none => .error (.httpError 404)
  | .ok (some st) => .ok st

end CandidateRouter

/-! ## SQL statement traces. Every `db.execute(...)` call site in the
source issues one statement; a statement records its kind, the relations
in its FROM/JOIN clauses, and whether it computes aggregates. -/

inductive Relation where
  | goldCandidate
  | goldCommittee
  | goldContributor
  | goldContribution
  | mvContributorStats
  | mvContributorCandidateStats
  | mvContributorCommitteeStats
  | mvCandidateStats
  deriving Repr, DecidableEq

inductive StmtKind where
  | select
  | insertStmt
  | updateStmt
  | deleteStmt
  | commitTx
  deriving Repr, DecidableEq

structure Stmt where
  kind : StmtKind
  rels : List Relation
  agg : Bool := false
  deriving Repr, DecidableEq

/-- A SELECT statement reading the given relations. -/
def sel (rels : List Relation) (agg : Bool := false) : Stmt :=
  { kind := .select, rels := rels, agg := agg }

/-- The statements executed by `get_contributors_by_candidate`, in execution
order: the existence check (line 342); on the materialized-view path the
count (lines 412-444), the page query (line 448) and the summary (line 461);
on the live path the count (line 543), the page query (line 547) and the
summary (line 562); finally the batch contributions fetch (line 588) when
requested and the page is non-empty.  A failed `sort_column_map` lookup
raises before the count query runs. -/
def byCandidateTrace (db : DB) (candidate_id : Nat) (a : ContributorsByArgs) : List Stmt :=
  let exist := sel [.goldCandidate]
  match oneOrNone (db.candidates.filter (fun c => c.id == candidate_id)) with
  | .error _ => [exist]
  | .ok none => [exist]
  | .ok (some _) =>
    let use_mv := a.date_from.isNone && a.date_to.isNone
    let branchStmts :=
      if use_mv then
        match lookupSortCol mvSortColumnMapCand a.sort_by with
        | none => []
        | some _ =>
          [sel [.mvContributorCandidateStats, .goldContributor] true,
           sel [.goldContributor, .mvContributorCandidateStats],
           sel [.mvContributorCandidateStats] true]
      else
        match lookupSortCol liveSortColumnMapCand a.sort_by with
        | none => []
        | some _ =>
          [sel [.goldContributor, .goldContribution] true,
           sel [.goldContributor, .goldContribution] true,
           sel [.goldContribution] true]
    let fetchStmts :=
      match (if use_mv then mvBranchCand db candidate_id a
             else liveBranch db (candContribFilter candidate_id a.date_from a.date_to)
                    liveSortColumnMapCand a) with
      | .error _ => []
      | .ok br =>
        if a.include_contributions && !(br.rows.map (fun r => r.contributor_id)).isEmpty then
          [sel [.goldContribution]]
        else []
    exist :: (branchStmts ++ fetchStmts)

/-- The statements executed by `get_contributors_by_committee`: the existence
check (line 681), the candidate-name lookup (line 688) when
`committee.candidate_id` is truthy, then as for the candidate version
(count lines 758-790 / 881, page query lines 794 / 885, summary lines
807 / 900, batch fetch line 926). -/
def byCommitteeTrace (db : DB) (committee_id : Nat) (a : ContributorsByArgs) : List Stmt :=
  let exist := sel [.goldCommittee]
  match oneOrNone (db.committees.filter (fun c => c.id == committee_id)) with
  | .error _ => [exist]
  | .ok none => [exist]
  | .ok (some committee) =>
    let nameStmts :=
      match committee.candidate_id with
      | some cid => if cid == 0 then [] else [sel [.goldCandidate]]
      | none => []
    let use_mv := a.date_from.isNone && a.date_to.isNone
    let branchStmts :=
      if use_mv then
        match lookupSortCol mvSortColumnMapComm a.sort_by with
        | none => []
        | some _ =>
          [sel [.mvContributorCommitteeStats, .goldContributor] true,
           sel [.goldContributor, .mvContributorCommitteeStats],
           sel [.mvContributorCommitteeStats] true]
      else
        match lookupSortCol liveSortColumnMapComm a.sort_by with
        | none => []
        | some _ =>
          [sel [.goldContributor, .goldContribution] true,
           sel [.goldContributor, .goldContribution] true,
           sel [.goldContribution] true]
    let fetchStmts :=
      match (if use_mv then mvBranchComm db committee_id a
             else liveBranch db (commContribFilter committee_id a.date_from a.date_to)
                    liveSortColumnMapComm a) with
      | .error _ => []
      | .ok br =>
        if a.include_contributions && !(br.rows.map (fun r => r.contributor_id)).isEmpty then
          [sel [.goldContribution]]
        else []
    exist :: (nameStmts ++ branchStmts ++ fetchStmts)

/-! ## A small concrete database used to exercise the theorems -/

def candEx : GoldCandidate :=
  { id := 1, name := "Alice Adams", office := "S", state := some "MD",
    district := none, party := some "DEM" }

def commEx : GoldCommittee :=
  { id := 5, name := "Friends of Alice", committee_type := "CANDIDATE",
    state := some "MD", party := some "DEM", candidate_id := some 1 }

def contributorEx : GoldContributor :=
  { id := 10, name := "John Smith", city := some "Baltimore", state := some "MD",
    zip := some "21201", entity_type := "IND", employer := some "Acme",
    occupation := some "Engineer" }

def contributionEx1 : GoldContribution :=
  { id := 100, contributor_id := 10, recipient_candidate_id := some 1,
    recipient_committee_id := some 5, amount := 500, contribution_date := 20,
    contribution_type := "15" }

def contributionEx2 : GoldContribution :=
  { id := 101, contributor_id := 10, recipient_candidate_id := some 1,
    recipient_committee_id := some 5, amount := 300, contribution_date := 25,
    contribution_type := "15" }

def dbEx : DB :=
  { candidates := [candEx]
    committees := [commEx]
    contributors := [contributorEx]
    contributions := [contributionEx1, contributionEx2] }

/-! ## The full set of SQL statement templates the application can issue.

Every `db.execute(...)` call site in the repository constructs its statement
from `select(...)` or from a raw `text("SELECT ...")` string; the templates
below list, per service module, the relations each site reads and whether it
aggregates.  No site anywhere in the repository builds an INSERT, UPDATE or
DELETE statement, and no site calls `commit()` (the session factory in
dependencies.py only opens and closes read sessions). -/

def appStatements : List Stmt :=
  [ -- ContributorService: list/search/search_enhanced counts and pages,
    -- get_contributor_by_id (services/contributor.py lines 43-167)
    sel [.goldContributor] true,
    sel [.goldContributor],
    -- get_contributor_stats (line 189)
    sel [.mvContributorStats],
    -- get_top_contributors / count_top_contributors (lines 257, 313)
    sel [.mvContributorStats, .goldContributor],
    sel [.mvContributorStats, .goldContributor] true,
    -- get_contributors_by_candidate (lines 342, 444, 448, 461, 543, 547, 562, 588)
    sel [.goldCandidate],
    sel [.mvContributorCandidateStats, .goldContributor] true,
    sel [.goldContributor, .mvContributorCandidateStats],
    sel [.mvContributorCandidateStats] true,
    sel [.goldContributor, .goldContribution] true,
    sel [.goldContribution] true,
    sel [.goldContribution],
    -- get_contributors_by_committee (lines 681, 688, 790, 794, 807, 881, 885, 900, 926)
    sel [.goldCommittee],
    sel [.mvContributorCommitteeStats, .goldContributor] true,
    sel [.goldContributor, .mvContributorCommitteeStats],
    sel [.mvContributorCommitteeStats] true,
    -- search_contributors_with_aggregations reuses the contributor-contribution
    -- aggregate shape (lines 1096, 1117)
    -- get_contributor_contributions (line 1213)
    sel [.goldContribution, .goldCommittee],
    -- get_contributor_recipients (lines 1284, 1292)
    sel [.mvContributorCommitteeStats, .goldCommittee],
    -- CandidateService (services/candidate.py lines 91, 97, 139, 191, 197, 219,
    -- 260, 292, 433, 442, 494, 519): candidate lists/lookups, stats aggregates,
    -- and the candidate-contribution stats joins
    sel [.goldCandidate] true,
    sel [.goldCandidate, .goldContribution] true,
    -- CommitteeService (services/committee.py lines 82, 120, 150, 162, 188,
    -- 195, 220, 226, 275, 281, 303, 319, 327)
    sel [.goldCommittee] true,
    sel [.goldCommittee, .goldContribution] true,
    sel [.goldCommittee, .goldCandidate],
    -- ContributionService (services/contribution.py lines 58, 68, 76, 93, 97,
    -- 103, 146, 169, 177, 195, 203, 221, 229)
    -- RaceService (services/race.py lines 42, 66, 97, 162, 186, 223, 280, 301,
    -- 335): candidate lists, contribution aggregates, candidate-contribution
    -- outer-join summaries
    -- StateService (services/state.py lines 41, 57, 66, 81, 94, 103, 118):
    -- candidate aggregates and mv_candidate_stats joins
    sel [.goldCandidate, .mvCandidateStats] true,
    sel [.goldCandidate, .mvCandidateStats],
    -- MetadataService (services/metadata.py lines 124, 148, 172, 196, 222, 246):
    -- DISTINCT column selects over the three dimension tables (shapes above)
    sel [.goldContribution, .goldContributor],
    sel [.goldContribution, .goldCandidate] ]

/-- Clear the rows of one relation: the coarse over-approximation of what a
write statement could do to the database state. -/
def clearRel (db : DB) (r : Relation) : DB :=
  match r with
  | .goldCandidate => { db with candidates := [] }
  | .goldCommittee => { db with committees := [] }
  | .goldContributor => { db with contributors := [] }
  | .goldContribution => { db with contributions := [] }
  | .mvContributorStats => { db with mv_contributor_stats := [] }
  | .mvContributorCandidateStats => { db with mv_contributor_candidate_stats := [] }
  | .mvContributorCommitteeStats => { db with mv_contributor_committee_stats := [] }
  | .mvCandidateStats => { db with mv_candidate_stats := [] }

/-- Executing one statement: a SELECT (or a commit of a session with no
writes) leaves the database unchanged; a write statement may modify every
relation it touches. -/
def applyStmt (db : DB) (s : Stmt) : DB :=
  match s.kind with
  | .select => db
  | .commitTx => db
  | .insertStmt => s.rels.foldl clearRel db
  | .updateStmt => s.rels.foldl clearRel db
  | .deleteStmt => s.rels.foldl clearRel db

def execStmts (db : DB) (l : List Stmt) : DB := l.foldl applyStmt db

/-! ## The aggregation the materialized views are assumed to equal (C2).

The views themselves live in database migrations outside this repository;
the refinement claim compares the two code paths over a database in which
each view holds exactly the per-(recipient, contributor) aggregation of the
contributions table that the live path computes. -/

/-- The aggregated row for one (candidate, contributor) pair, `none` when the
contributor has no matching contributions. -/
def candAggOpt (db : DB) (cid : Nat) (gc : GoldContributor) :
    Option MvContributorCandidateStats :=
  let cs := db.contributions.filter
    (fun x => candContribFilter cid none none x && x.contributor_id == gc.id)
  match cs with
  | [] => none
  | _ :: _ =>
    some { candidate_id := cid
           contributor_id := gc.id
           contribution_count := cs.length
           total_amount := (cs.map (fun c => c.amount)).sum
           first_contribution_date := listMinO (cs.map (fun c => c.contribution_date))
           last_contribution_date := listMaxO (cs.map (fun c => c.contribution_date)) }

/-- The contents of `mv_contributor_candidate_stats` as the aggregation of
the contributions table. -/
def computeMvCand (db : DB) : List MvContributorCandidateStats :=
  db.candidates.flatMap (fun cand => db.contributors.filterMap (candAggOpt db cand.id))

/-- The aggregated row for one (committee, contributor) pair. -/
def commAggOpt (db : DB) (cid : Nat) (gc : GoldContributor) :
    Option MvContributorCommitteeStats :=
  let cs := db.contributions.filter
    (fun x => commContribFilter cid none none x && x.contributor_id == gc.id)
  match cs with
  | [] => none
  | _ :: _ =>
    some { committee_id := cid
           contributor_id := gc.id
           contribution_count := cs.length
           total_amount := (cs.map (fun c => c.amount)).sum
           first_contribution_date := listMinO (cs.map (fun c => c.contribution_date))
           last_contribution_date := listMaxO (cs.map (fun c => c.contribution_date)) }

/-- The contents of `mv_contributor_committee_stats` as the aggregation of
the contributions table. -/
def computeMvComm (db : DB) : List MvContributorCommitteeStats :=
  db.committees.flatMap (fun comm => db.contributors.filterMap (commAggOpt db comm.id))


/-- A database whose materialized views hold exactly the aggregation of the
contributions table (used to exercise the refinement theorem). -/
def dbMvBase : DB :=
  { candidates := [candEx]
    committees := [commEx]
    contributors := [contributorEx]
    contributions := [contributionEx1, contributionEx2] }

def dbMv : DB :=
  { dbMvBase with
    mv_contributor_candidate_stats := computeMvCand dbMvBase
    mv_contributor_committee_stats := computeMvComm dbMvBase }


/-! # Theorems -/

/-! ## Lemmas about dictionary filtering -/

theorem dictGet_cons (e : String × PyValue) (rest : PyDict) (k : String) :
    dictGet (e :: rest) k = if e.fst == k then some e.snd else dictGet rest k := by
  simp only [dictGet, List.find?]
  cases h : (e.fst == k) <;> simp [h]

theorem dictSet_cons (e : String × PyValue) (rest : PyDict) (k : String) (v : PyValue) :
    dictSet (e :: rest) k v = if e.fst == k then (k, v) :: rest else e :: dictSet rest k v := rfl

theorem dictGet_dictSet (d : PyDict) (k : String) (v : PyValue) (k' : String) :
    dictGet (dictSet d k v) k' = if k' = k then some v else dictGet d k' := by
  induction d with
  | nil =>
    by_cases h : k' = k
    · subst h; simp [dictSet, dictGet_cons, dictGet]
    · have hb : (k == k') = false := by
        simp only [beq_eq_false_iff_ne, ne_eq]
        exact fun hc => h hc.symm
      simp [dictSet, dictGet_cons, dictGet, hb, h, List.find?]
  | cons e rest ih =>
    by_cases he : e.fst = k
    · have hb : (e.fst == k) = true := by simpa [beq_iff_eq] using he
      rw [dictSet_cons, if_pos hb, dictGet_cons, dictGet_cons]
      by_cases h : k' = k
      · subst h; simp [beq_iff_eq, he]
      · have hk1 : (k == k') = false := by
          simp only [beq_eq_false_iff_ne, ne_eq]
          exact fun hc => h hc.symm
        have hk2 : (e.fst == k') = false := by
          simp only [beq_eq_false_iff_ne, ne_eq]
          intro hc; rw [he] at hc; exact h hc.symm
        simp [hk1, hk2, h]
    · have hb : (e.fst == k) = false := by simpa [beq_eq_false_iff_ne, ne_eq] using he
      rw [dictSet_cons, if_neg (by simp [hb]), dictGet_cons, dictGet_cons, ih]
      by_cases h2 : e.fst = k'
      · have : k' ≠ k := fun hc => he (h2.trans hc)
        simp [beq_iff_eq, h2, this]
      · have hb2 : (e.fst == k') = false := by simpa [beq_eq_false_iff_ne, ne_eq] using h2
        simp [hb2]

theorem filter_dict_loop (data : PyDict) (fields : List String) (acc : PyDict)
    (hnd : ∀ f ∈ fields, hasDot f = false) (k : String) :
    dictGet (fields.foldl (filterDictStep data) acc) k =
      if k ∈ fields ∧ (dictGet data k).isSome then dictGet data k else dictGet acc k := by
  induction fields generalizing acc with
  | nil => simp
  | cons f fs ih =>
    have hf : hasDot f = false := hnd f (List.mem_cons_self f fs)
    have hfs : ∀ g ∈ fs, hasDot g = false := fun g hg => hnd g (List.mem_cons_of_mem f hg)
    have hstep : filterDictStep data acc f =
        match dictGet data f with
        | some v => dictSet acc f v
        | none => acc := by
      simp [filterDictStep, hf]
    rw [List.foldl_cons, ih (filterDictStep data acc f) hfs]
    by_cases hmem : k ∈ fs ∧ (dictGet data k).isSome
    · simp [hmem, List.mem_cons, hmem.1]
    · simp only [if_neg hmem]
      by_cases hk : k = f
      · subst hk
        cases hv : dictGet data k with
        | none => simp [hstep, hv, List.mem_cons]
        | some v => simp [hstep, hv, dictGet_dictSet, List.mem_cons]
      · have h1 : (k ∈ f :: fs ∧ (dictGet data k).isSome) ↔ (k ∈ fs ∧ (dictGet data k).isSome) := by
          simp [List.mem_cons, hk]
        rw [if_congr h1 rfl rfl, if_neg hmem]
        cases hv : dictGet data f with
        | none => simp [hstep, hv]
        | some v => simp [hstep, hv, dictGet_dictSet, hk]

/-- C7: `apply_field_selection(d, F)` with a non-empty dot-free field set `F`
restricts the dictionary `d` to the keys in `F` (requested keys absent from
`d` are silently omitted, keys of `d` not in `F` are removed); with `F` equal
to `None` or empty it returns all fields unchanged; for a list input the same
filtering is applied element-wise. -/
theorem C7_apply_field_selection (d : PyDict) (F : List String) (l : List FsItem)
    (hne : F ≠ []) (hnd : ∀ f ∈ F, hasDot f = false) :
    (∀ k, dictGet (filter_dict d F) k = if k ∈ F then dictGet d k else none)
  ∧ apply_field_selection (.one (.ofDict d)) (some F) = .one (filter_dict d F)
  ∧ apply_field_selection (.many l) (some F) = .many (l.map (fun i => filter_dict i.dump F))
  ∧ apply_field_selection (.one (.ofDict d)) none = .one d
  ∧ apply_field_selection (.one (.ofDict d)) (some []) = .one d
  ∧ apply_field_selection (.many l) none = .many (l.map FsItem.dump) := by
  have hfe : F.isEmpty = false := by
    cases F with
    | nil => exact absurd rfl hne
    | cons a l => rfl
  refine ⟨?_, ?_, ?_, rfl, rfl, rfl⟩
  · intro k
    have h := filter_dict_loop d F [] hnd k
    rw [filter_dict, h]
    by_cases hm : k ∈ F
    · cases hv : dictGet d k with
      | none => simp [hm, hv, dictGet, List.find?]
      | some v => simp [hm, hv]
    · simp [hm, dictGet, List.find?]
  · simp [apply_field_selection, hfe, FsItem.dump]
  · simp [apply_field_selection, hfe]

theorem C7_witness :
    (dictGet (filter_dict fsExampleDict fsExampleFields) "id" =
      if "id" ∈ fsExampleFields then dictGet fsExampleDict "id" else none)
  ∧ apply_field_selection (.one (.ofDict fsExampleDict)) none = .one fsExampleDict := by
  have h := C7_apply_field_selection fsExampleDict fsExampleFields [] (by decide) (by decide)
  exact ⟨h.1 "id", h.2.2.2.1⟩

/-- C6: for `page ≥ 1`, `page_size ≥ 1` and any `total_items`,
`create_pagination_meta` computes `total_pages` as the exact ceiling of
`total_items / page_size` (0 when `total_items = 0`), `has_next` as
`page < total_pages` and `has_prev` as `page > 1`. -/
theorem C6_create_pagination_meta (page ps t : Nat) (_hp : 1 ≤ page) (_hs : 1 ≤ ps) :
    (create_pagination_meta page ps t).total_pages = (if 0 < t then t ⌈/⌉ ps else 0)
  ∧ ((create_pagination_meta page ps t).has_next = true ↔
      page < (create_pagination_meta page ps t).total_pages)
  ∧ ((create_pagination_meta page ps t).has_prev = true ↔ 1 < page) := by
  refine ⟨?_, by simp [create_pagination_meta], by simp [create_pagination_meta]⟩
  simp only [create_pagination_meta, Nat.ceilDiv_eq_add_pred_div]

theorem C6_witness :
    1 ≤ 2 ∧ 1 ≤ 10 ∧
    ((create_pagination_meta 2 10 25).total_pages = (if 0 < 25 then 25 ⌈/⌉ 10 else 0)
  ∧ ((create_pagination_meta 2 10 25).has_next = true ↔
      2 < (create_pagination_meta 2 10 25).total_pages)
  ∧ ((create_pagination_meta 2 10 25).has_prev = true ↔ 1 < 2)) :=
  ⟨by decide, by decide, C6_create_pagination_meta 2 10 25 (by decide) (by decide)⟩


/-! ## Helper lemmas: id-keyed lookups under key uniqueness -/

theorem filter_key_eq_nil_iff {α : Type} (l : List α) (key : α → Nat) (k : Nat) :
    l.filter (fun x => key x == k) = [] ↔ ∀ x ∈ l, key x ≠ k := by
  rw [List.filter_eq_nil_iff]
  simp [beq_iff_eq]

theorem length_filter_key_le_one {α : Type} (l : List α) (key : α → Nat) (k : Nat)
    (h : (l.map key).Nodup) :
    (l.filter (fun x => key x == k)).length ≤ 1 := by
  induction l with
  | nil => simp
  | cons x xs ih =>
    simp only [List.map_cons, List.nodup_cons] at h
    by_cases hk : key x = k
    · have hnil : xs.filter (fun y => key y == k) = [] := by
        rw [List.filter_eq_nil_iff]
        intro y hy
        simp only [beq_iff_eq]
        intro hyk
        have : key x ∈ xs.map key := by
          rw [hk, ← hyk]
          exact List.mem_map_of_mem key hy
        exact h.1 this
      simp [List.filter_cons, hk, hnil]
    · simp only [List.filter_cons, beq_iff_eq, hk]
      simpa using ih h.2

theorem oneOrNone_len_le_one {α : Type} (l : List α) (h : l.length ≤ 1) :
    oneOrNone l = .ok l.head? := by
  match l with
  | [] => rfl
  | [x] => rfl
  | x :: y :: rest =>
    simp only [List.length_cons] at h
    omega

theorem oneOrNone_key_nodup {α : Type} (l : List α) (key : α → Nat) (k : Nat)
    (h : (l.map key).Nodup) :
    oneOrNone (l.filter (fun x => key x == k)) =
      .ok ((l.filter (fun x => key x == k)).head?) :=
  oneOrNone_len_le_one _ (length_filter_key_le_one l key k h)

theorem oneOrNone_error_eq {α : Type} (l : List α) (e : SvcError)
    (h : oneOrNone l = .error e) : e = .multipleResults := by
  match l with
  | [] => exact absurd h (by simp [oneOrNone])
  | [x] => exact absurd h (by simp [oneOrNone])
  | x :: y :: rest =>
    simp only [oneOrNone] at h
    exact (Except.error.injEq _ _ ▸ h).symm

theorem head?_mem_of_filter {α : Type} (l : List α) (p : α → Bool) (x : α)
    (h : (l.filter p).head? = some x) : x ∈ l ∧ p x = true := by
  cases hf : l.filter p with
  | nil => rw [hf] at h; simp at h
  | cons a t =>
    rw [hf] at h
    simp only [List.head?_cons, Option.some.injEq] at h
    have hx : x ∈ l.filter p := by
      rw [hf, ← h]
      exact List.mem_cons_self a t
    exact ⟨(List.mem_filter.mp hx).1, (List.mem_filter.mp hx).2⟩

/-- For every string in the routers' `valid_sort_by` set, all four
`sort_column_map` dictionaries of the two service functions have an entry. -/
theorem lookup_sort_of_valid (s : String) (hs : s ∈ ContributorRouter.valid_sort_by) :
    ∃ col, lookupSortCol mvSortColumnMapCand s = some col
      ∧ lookupSortCol liveSortColumnMapCand s = some col
      ∧ lookupSortCol mvSortColumnMapComm s = some col
      ∧ lookupSortCol liveSortColumnMapComm s = some col := by
  fin_cases hs
  · exact ⟨.total_amount, rfl, rfl, rfl, rfl⟩
  · exact ⟨.contribution_count, rfl, rfl, rfl, rfl⟩
  · exact ⟨.name, rfl, rfl, rfl, rfl⟩
  · exact ⟨.first_date, rfl, rfl, rfl, rfl⟩
  · exact ⟨.last_date, rfl, rfl, rfl, rfl⟩

/-- C3: on the id-based lookup endpoints the only failure behavior is the
404 path: the service returns `None` exactly when no row with the requested
id exists, the router raises HTTP 404 exactly when the service returns
`None`, and otherwise the endpoint returns a successful response (for the
by-candidate endpoint, under the router's own parameter validation). -/
theorem C3_id_lookup_only_404 (db : DB) (contributor_id candidate_id : Nat)
    (page page_size : Nat) (sort_by order : String)
    (hnc : (db.contributors.map (fun c => c.id)).Nodup)
    (hna : (db.candidates.map (fun c => c.id)).Nodup)
    (hs : sort_by ∈ ContributorRouter.valid_sort_by)
    (ho : order ∈ ContributorRouter.valid_order) :
    (ContributorService.get_contributor_by_id db contributor_id = .ok none ↔
       ∀ c ∈ db.contributors, c.id ≠ contributor_id)
  ∧ (ContributorRouter.get_contributor db contributor_id = .error (.httpError 404) ↔
       ContributorService.get_contributor_by_id db contributor_id = .ok none)
  ∧ (∀ c, ContributorService.get_contributor_by_id db contributor_id = .ok (some c) →
       ContributorRouter.get_contributor db contributor_id = .ok c)
  ∧ (ContributorRouter.get_contributors_by_candidate db candidate_id page page_size
       sort_by order none none none none none none none false = .error (.httpError 404) ↔
       ∀ c ∈ db.candidates, c.id ≠ candidate_id)
  ∧ ((∀ c ∈ db.candidates, c.id ≠ candidate_id) ∨
       ∃ r, ContributorRouter.get_contributors_by_candidate db candidate_id page page_size
         sort_by order none none none none none none none false = .ok r) := by
  have hsvc : ContributorService.get_contributor_by_id db contributor_id =
      .ok ((db.contributors.filter (fun c => c.id == contributor_id)).head?) :=
    oneOrNone_key_nodup db.contributors (fun c => c.id) contributor_id hnc
  have hsvc2 : oneOrNone (db.candidates.filter (fun c => c.id == candidate_id)) =
      .ok ((db.candidates.filter (fun c => c.id == candidate_id)).head?) :=
    oneOrNone_key_nodup db.candidates (fun c => c.id) candidate_id hna
  obtain ⟨col, hcolMv, hcolLive, hcolMvC, hcolLiveC⟩ := lookup_sort_of_valid sort_by hs
  have hcs : ContributorRouter.valid_sort_by.contains sort_by = true :=
    List.elem_eq_true_of_mem hs
  have hco : ContributorRouter.valid_order.contains order = true :=
    List.elem_eq_true_of_mem ho
  have hby : (ContributorRouter.get_contributors_by_candidate db candidate_id page page_size
       sort_by order none none none none none none none false = .error (.httpError 404) ↔
       ∀ c ∈ db.candidates, c.id ≠ candidate_id)
     ∧ ((∀ c ∈ db.candidates, c.id ≠ candidate_id) ∨
       ∃ r, ContributorRouter.get_contributors_by_candidate db candidate_id page page_size
         sort_by order none none none none none none none false = .ok r) := by
    cases hh : (db.candidates.filter (fun c => c.id == candidate_id)).head? with
    | none =>
      have hall : ∀ c ∈ db.candidates, c.id ≠ candidate_id := by
        rw [List.head?_eq_none_iff] at hh
        exact (filter_key_eq_nil_iff db.candidates (fun c => c.id) candidate_id).mp hh
      have h404 : ContributorRouter.get_contributors_by_candidate db candidate_id page
          page_size sort_by order none none none none none none none false =
          .error (.httpError 404) := by
        simp only [ContributorRouter.get_contributors_by_candidate, hcs, hco,
          Bool.not_true, Bool.false_eq_true, if_false]
        unfold ContributorService.get_contributors_by_candidate
        rw [hsvc2, hh]
      exact ⟨iff_of_true h404 hall, Or.inl hall⟩
    | some cand =>
      have hnall : ¬∀ c ∈ db.candidates, c.id ≠ candidate_id := by
        obtain ⟨hmem, hpk⟩ := head?_mem_of_filter db.candidates
          (fun c => c.id == candidate_id) cand hh
        intro hall
        exact hall cand hmem (by simpa [beq_iff_eq] using hpk)
      have hok : ∃ r, ContributorRouter.get_contributors_by_candidate db candidate_id page
          page_size sort_by order none none none none none none none false = .ok r := by
        simp only [ContributorRouter.get_contributors_by_candidate, hcs, hco,
          Bool.not_true, Bool.false_eq_true, if_false]
        unfold ContributorService.get_contributors_by_candidate
        rw [hsvc2, hh]
        simp only [Option.isNone_none, Bool.and_self, if_true]
        unfold mvBranchCand
        rw [hcolMv]
        exact ⟨_, rfl⟩
      obtain ⟨r, hr⟩ := hok
      exact ⟨iff_of_false (by simp [hr]) hnall, Or.inr ⟨r, hr⟩⟩
  refine ⟨?_, ?_, ?_, hby.1, hby.2⟩
  · rw [hsvc]
    constructor
    · intro h
      have hn : (db.contributors.filter (fun c => c.id == contributor_id)).head? = none := by
        simpa using h
      rw [List.head?_eq_none_iff] at hn
      exact (filter_key_eq_nil_iff db.contributors (fun c => c.id) contributor_id).mp hn
    · intro h
      have hn : db.contributors.filter (fun c => c.id == contributor_id) = [] :=
        (filter_key_eq_nil_iff db.contributors (fun c => c.id) contributor_id).mpr h
      simp [hn]
  · rw [hsvc]
    cases hh : (db.contributors.filter (fun c => c.id == contributor_id)).head? with
    | none => simp [ContributorRouter.get_contributor, hsvc, hh]
    | some c => simp [ContributorRouter.get_contributor, hsvc, hh]
  · intro c h
    simp [ContributorRouter.get_contributor, h]

theorem C3_witness :
    (ContributorService.get_contributor_by_id dbEx 10 = .ok none ↔
       ∀ c ∈ dbEx.contributors, c.id ≠ 10)
  ∧ (ContributorRouter.get_contributor dbEx 10 = .error (.httpError 404) ↔
       ContributorService.get_contributor_by_id dbEx 10 = .ok none)
  ∧ (∀ c, ContributorService.get_contributor_by_id dbEx 10 = .ok (some c) →
       ContributorRouter.get_contributor dbEx 10 = .ok c)
  ∧ (ContributorRouter.get_contributors_by_candidate dbEx 1 1 25
       "total_amount" "desc" none none none none none none none false = .error (.httpError 404) ↔
       ∀ c ∈ dbEx.candidates, c.id ≠ 1)
  ∧ ((∀ c ∈ dbEx.candidates, c.id ≠ 1) ∨
       ∃ r, ContributorRouter.get_contributors_by_candidate dbEx 1 1 25
         "total_amount" "desc" none none none none none none none false = .ok r) :=
  C3_id_lookup_only_404 dbEx 10 1 1 25 "total_amount" "desc"
    (by decide) (by decide) (by decide) (by decide)

/-- C5: for every existing candidate, `CandidateService.get_candidate_stats`
returns exactly the stats-aggregation pattern over that candidate's
contributions: COUNT, coalesced SUM (0 when empty), COUNT(DISTINCT
contributor_id) and coalesced AVG (0 when empty). -/
theorem C5_get_candidate_stats (db : DB) (candidate_id : Nat) (c : GoldCandidate)
    (hex : CandidateService.get_candidate_by_id db candidate_id = .ok (some c)) :
    CandidateService.get_candidate_stats db candidate_id = .ok (some
      { candidate_id := candidate_id
        total_contributions := (db.contributions.filter
          (fun x => x.recipient_candidate_id == some candidate_id)).length
        total_amount := (((db.contributions.filter
          (fun x => x.recipient_candidate_id == some candidate_id)).map
            (fun x => x.amount)).sum : Int)
        unique_contributors := ((db.contributions.filter
          (fun x => x.recipient_candidate_id == some candidate_id)).map
            (fun x => x.contributor_id)).toFinset.card
        avg_contribution :=
          if (db.contributions.filter
              (fun x => x.recipient_candidate_id == some candidate_id)).length = 0 then 0
          else (((db.contributions.filter
              (fun x => x.recipient_candidate_id == some candidate_id)).map
                (fun x => x.amount)).sum : Int) /
            (((db.contributions.filter
              (fun x => x.recipient_candidate_id == some candidate_id)).length : Nat) : Rat) }) := by
  unfold CandidateService.get_candidate_stats
  rw [hex]
  simp [List.card_toFinset]

theorem C5_witness :
    CandidateService.get_candidate_stats dbEx 1 = .ok (some
      { candidate_id := 1
        total_contributions := (dbEx.contributions.filter
          (fun x => x.recipient_candidate_id == some 1)).length
        total_amount := (((dbEx.contributions.filter
          (fun x => x.recipient_candidate_id == some 1)).map (fun x => x.amount)).sum : Int)
        unique_contributors := ((dbEx.contributions.filter
          (fun x => x.recipient_candidate_id == some 1)).map
            (fun x => x.contributor_id)).toFinset.card
        avg_contribution :=
          if (dbEx.contributions.filter
              (fun x => x.recipient_candidate_id == some 1)).length = 0 then 0
          else (((dbEx.contributions.filter
              (fun x => x.recipient_candidate_id == some 1)).map
                (fun x => x.amount)).sum : Int) /
            (((dbEx.contributions.filter
              (fun x => x.recipient_candidate_id == some 1)).length : Nat) : Rat) }) :=
  C5_get_candidate_stats dbEx 1 candEx rfl

/-- C8: `get_contributor_stats` returns `None` only when the contributor row
is missing; an existing contributor with no row in `mv_contributor_stats`
gets an all-zero stats object with `None` dates, and the stats endpoint
raises 404 exactly for missing contributors, never for contributors without
contributions. -/
theorem C8_contributor_stats_zero (db : DB) (contributor_id : Nat)
    (hnc : (db.contributors.map (fun c => c.id)).Nodup)
    (hnm : (db.mv_contributor_stats.map (fun r => r.contributor_id)).Nodup) :
    (ContributorService.get_contributor_stats db contributor_id = .ok none ↔
       ∀ c ∈ db.contributors, c.id ≠ contributor_id)
  ∧ ((∃ c ∈ db.contributors, c.id = contributor_id) →
       (∀ r ∈ db.mv_contributor_stats, r.contributor_id ≠ contributor_id) →
       ContributorService.get_contributor_stats db contributor_id = .ok (some
         { contributor_id := contributor_id
           total_contributions := 0
           total_amount := 0
           unique_recipients := 0
           avg_contribution := 0
           first_contribution_date := none
           last_contribution_date := none }))
  ∧ (ContributorRouter.get_contributor_stats db contributor_id = .error (.httpError 404) ↔
       ∀ c ∈ db.contributors, c.id ≠ contributor_id) := by
  have hsvc : ContributorService.get_contributor_by_id db contributor_id =
      .ok ((db.contributors.filter (fun c => c.id == contributor_id)).head?) :=
    oneOrNone_key_nodup db.contributors (fun c => c.id) contributor_id hnc
  have hmv : oneOrNone
      (db.mv_contributor_stats.filter (fun r => r.contributor_id == contributor_id)) =
      .ok ((db.mv_contributor_stats.filter
        (fun r => r.contributor_id == contributor_id)).head?) :=
    oneOrNone_key_nodup db.mv_contributor_stats (fun r => r.contributor_id) contributor_id hnm
  cases hh : (db.contributors.filter (fun c => c.id == contributor_id)).head? with
  | none =>
    have hall : ∀ c ∈ db.contributors, c.id ≠ contributor_id := by
      rw [List.head?_eq_none_iff] at hh
      exact (filter_key_eq_nil_iff db.contributors (fun c => c.id) contributor_id).mp hh
    have hnone : ContributorService.get_contributor_stats db contributor_id = .ok none := by
      unfold ContributorService.get_contributor_stats
      rw [hsvc, hh]
    refine ⟨iff_of_true hnone hall, ?_, ?_⟩
    · rintro ⟨c, hc, hcid⟩ _
      exact absurd hcid (hall c hc)
    · refine iff_of_true ?_ hall
      simp [ContributorRouter.get_contributor_stats, hnone]
  | some c0 =>
    have hnall : ¬∀ c ∈ db.contributors, c.id ≠ contributor_id := by
      obtain ⟨hmem, hpk⟩ := head?_mem_of_filter db.contributors
        (fun c => c.id == contributor_id) c0 hh
      intro hall
      exact hall c0 hmem (by simpa [beq_iff_eq] using hpk)
    have hsome : ∃ st, ContributorService.get_contributor_stats db contributor_id =
        .ok (some st) := by
      unfold ContributorService.get_contributor_stats
      rw [hsvc, hh, hmv]
      cases (db.mv_contributor_stats.filter
          (fun r => r.contributor_id == contributor_id)).head? with
      | none => exact ⟨_, rfl⟩
      | some r => exact ⟨_, rfl⟩
    obtain ⟨st, hst⟩ := hsome
    refine ⟨iff_of_false (by simp [hst]) hnall, ?_, ?_⟩
    · intro _ hno
      have hfil : db.mv_contributor_stats.filter
          (fun r => r.contributor_id == contributor_id) = [] :=
        (filter_key_eq_nil_iff db.mv_contributor_stats
          (fun r => r.contributor_id) contributor_id).mpr hno
      unfold ContributorService.get_contributor_stats
      rw [hsvc, hh, hmv, hfil]
      rfl
    · refine iff_of_false ?_ hnall
      simp [ContributorRouter.get_contributor_stats, hst]

theorem C8_witness :
    (ContributorService.get_contributor_stats dbEx 10 = .ok none ↔
       ∀ c ∈ dbEx.contributors, c.id ≠ 10)
  ∧ ((∃ c ∈ dbEx.contributors, c.id = 10) →
       (∀ r ∈ dbEx.mv_contributor_stats, r.contributor_id ≠ 10) →
       ContributorService.get_contributor_stats dbEx 10 = .ok (some
         { contributor_id := 10
           total_contributions := 0
           total_amount := 0
           unique_recipients := 0
           avg_contribution := 0
           first_contribution_date := none
           last_contribution_date := none }))
  ∧ (ContributorRouter.get_contributor_stats dbEx 10 = .error (.httpError 404) ↔
       ∀ c ∈ dbEx.contributors, c.id ≠ 10) :=
  C8_contributor_stats_zero dbEx 10 (by decide) (by decide)

/-- C10: the by-candidate router raises HTTP 400 exactly when `sort_by` or
`order` is outside its validation sets; the validation set equals the key
set of both `sort_column_map` dictionaries in the service, so for validated
requests the unguarded `sort_column_map[sort_by]` indexing never raises. -/
theorem C10_sort_by_validation (db : DB) (candidate_id : Nat) (page page_size : Nat)
    (sort_by order : String) (ma mb : Option Int) (st et : Option String)
    (df dt : Option Nat) (se : Option String) (inc : Bool) :
    (ContributorRouter.get_contributors_by_candidate db candidate_id page page_size sort_by
        order ma mb st et df dt se inc = .error (.httpError 400) ↔
      (sort_by ∉ ContributorRouter.valid_sort_by ∨ order ∉ ContributorRouter.valid_order))
  ∧ mvSortColumnMapCand.map Prod.fst = ContributorRouter.valid_sort_by
  ∧ liveSortColumnMapCand.map Prod.fst = ContributorRouter.valid_sort_by
  ∧ (sort_by ∈ ContributorRouter.valid_sort_by →
      (lookupSortCol mvSortColumnMapCand sort_by).isSome = true
      ∧ (lookupSortCol liveSortColumnMapCand sort_by).isSome = true
      ∧ ∀ a : ContributorsByArgs, a.sort_by = sort_by →
          ContributorService.get_contributors_by_candidate db candidate_id a ≠
            .error .keyError) := by
  refine ⟨?_, rfl, rfl, ?_⟩
  · by_cases hsv : sort_by ∈ ContributorRouter.valid_sort_by
    · by_cases hov : order ∈ ContributorRouter.valid_order
      · have hcs : ContributorRouter.valid_sort_by.contains sort_by = true :=
          List.elem_eq_true_of_mem hsv
        have hco : ContributorRouter.valid_order.contains order = true :=
          List.elem_eq_true_of_mem hov
        refine iff_of_false ?_ (by push_neg; exact ⟨hsv, hov⟩)
        simp only [ContributorRouter.get_contributors_by_candidate, hcs, hco,
          Bool.not_true, Bool.false_eq_true, if_false]
        cases hsvc : ContributorService.get_contributors_by_candidate db candidate_id
            { include_contributions := inc, sort_by := sort_by, order := order,
              min_amount := ma, max_amount := mb, state := normUpperOpt st,
              entity_type := normUpperOpt et, date_from := df, date_to := dt,
              search := se, offset := (page - 1) * page_size, limit := page_size } with
        | error e => simp
        | ok v => cases v with
          | none => simp
          | some r => simp
      · have hcof : ContributorRouter.valid_order.contains order = false := by
          cases hc : ContributorRouter.valid_order.contains order with
          | false => rfl
          | true => exact absurd (List.mem_of_elem_eq_true hc) hov
        have hcs : ContributorRouter.valid_sort_by.contains sort_by = true :=
          List.elem_eq_true_of_mem hsv
        refine iff_of_true ?_ (Or.inr hov)
        simp only [ContributorRouter.get_contributors_by_candidate, hcs, hcof,
          Bool.not_true, Bool.not_false, Bool.false_eq_true, if_false, if_true]
    · have hcsf : ContributorRouter.valid_sort_by.contains sort_by = false := by
        cases hc : ContributorRouter.valid_sort_by.contains sort_by with
        | false => rfl
        | true => exact absurd (List.mem_of_elem_eq_true hc) hsv
      refine iff_of_true ?_ (Or.inl hsv)
      simp only [ContributorRouter.get_contributors_by_candidate, hcsf,
        Bool.not_false, if_true]
  · intro hsv
    obtain ⟨col, hcolMv, hcolLive, _, _⟩ := lookup_sort_of_valid sort_by hsv
    refine ⟨by simp [hcolMv], by simp [hcolLive], ?_⟩
    intro a ha
    unfold ContributorService.get_contributors_by_candidate
    cases hone : oneOrNone (db.candidates.filter (fun c => c.id == candidate_id)) with
    | error e =>
      have : e = .multipleResults := oneOrNone_error_eq _ e hone
      subst this
      simp
    | ok candO =>
      cases candO with
      | none => simp
      | some cand =>
        cases hmv : (a.date_from.isNone && a.date_to.isNone) with
        | true =>
          simp only [hmv, if_true]
          unfold mvBranchCand
          rw [ha, hcolMv]
          simp
        | false =>
          simp only [hmv, Bool.false_eq_true, if_false]
          unfold liveBranch
          rw [ha, hcolLive]
          simp

theorem C10_witness :
    (ContributorRouter.get_contributors_by_candidate dbEx 1 1 25 "bogus"
        "desc" none none none none none none none false = .error (.httpError 400) ↔
      ("bogus" ∉ ContributorRouter.valid_sort_by ∨ "desc" ∉ ContributorRouter.valid_order))
  ∧ mvSortColumnMapCand.map Prod.fst = ContributorRouter.valid_sort_by
  ∧ liveSortColumnMapCand.map Prod.fst = ContributorRouter.valid_sort_by
  ∧ ("bogus" ∈ ContributorRouter.valid_sort_by →
      (lookupSortCol mvSortColumnMapCand "bogus").isSome = true
      ∧ (lookupSortCol liveSortColumnMapCand "bogus").isSome = true
      ∧ ∀ a : ContributorsByArgs, a.sort_by = "bogus" →
          ContributorService.get_contributors_by_candidate dbEx 1 a ≠
            .error .keyError) :=
  C10_sort_by_validation dbEx 1 1 25 "bogus" "desc" none none none none none none none false

/-! ## Length bounds for C9 -/

theorem attachContributions_length (db : DB) (f : GoldContribution → Bool)
    (a : ContributorsByArgs) (rows : List ContributorAggRow) :
    (attachContributions db f a rows).length = rows.length := by
  simp [attachContributions]

theorem mvBranchCand_rows_len (db : DB) (cid : Nat) (a : ContributorsByArgs)
    (br : BranchOut) (h : mvBranchCand db cid a = .ok br) :
    br.rows.length ≤ a.limit := by
  unfold mvBranchCand at h
  cases hl : lookupSortCol mvSortColumnMapCand a.sort_by with
  | none => rw [hl] at h; exact absurd h (by simp)
  | some col =>
    rw [hl] at h
    simp only [Except.ok.injEq] at h
    rw [← h]
    exact List.length_take_le _ _

theorem liveBranch_rows_len (db : DB) (bf : GoldContribution → Bool)
    (m : List (String × SortCol)) (a : ContributorsByArgs)
    (br : BranchOut) (h : liveBranch db bf m a = .ok br) :
    br.rows.length ≤ a.limit := by
  unfold liveBranch at h
  cases hl : lookupSortCol m a.sort_by with
  | none => rw [hl] at h; exact absurd h (by simp)
  | some col =>
    rw [hl] at h
    simp only [Except.ok.injEq] at h
    rw [← h]
    exact List.length_take_le _ _

theorem by_candidate_resp_len (db : DB) (cid : Nat) (a : ContributorsByArgs)
    (r : ContributorsByCandidateResponse)
    (h : ContributorService.get_contributors_by_candidate db cid a = .ok (some r)) :
    r.contributors.length ≤ a.limit := by
  unfold ContributorService.get_contributors_by_candidate at h
  cases h1 : oneOrNone (db.candidates.filter (fun c => c.id == cid)) with
  | error e => rw [h1] at h; exact absurd h (by simp)
  | ok candO =>
    rw [h1] at h
    cases candO with
    | none => exact absurd h (by simp)
    | some cand =>
      cases hmv : (a.date_from.isNone && a.date_to.isNone) with
      | true =>
        simp only [hmv, if_true] at h
        cases h2 : mvBranchCand db cid a with
        | error e => rw [h2] at h; exact absurd h (by simp)
        | ok br =>
          rw [h2] at h
          simp only [Except.ok.injEq, Option.some.injEq] at h
          rw [← h]
          simp only [attachContributions_length]
          exact mvBranchCand_rows_len db cid a br h2
      | false =>
        simp only [hmv, Bool.false_eq_true, if_false] at h
        cases h2 : liveBranch db (candContribFilter cid a.date_from a.date_to)
            liveSortColumnMapCand a with
        | error e => rw [h2] at h; exact absurd h (by simp)
        | ok br =>
          rw [h2] at h
          simp only [Except.ok.injEq, Option.some.injEq] at h
          rw [← h]
          simp only [attachContributions_length]
          exact liveBranch_rows_len db _ _ a br h2

/-- C9: a validated `PaginationParams` satisfies `page ≥ 1` and
`1 ≤ page_size ≤ 1000`, its derived offset equals `(page - 1) * page_size`
and is non-negative, and the paginated list endpoints return at most 1000
items per response. -/
theorem C9_pagination_invariants (page page_size : Int) (p : PaginationParams)
    (hv : PaginationParams.validate page page_size = some p)
    (db : DB) (f : ContributorService.Filters) (candidate_id : Nat)
    (rpage rps : Nat) (sort_by order : String) (hrps : rps ≤ 1000)
    (ma mb : Option Int) (st et : Option String) (df dt : Option Nat)
    (se : Option String) (inc : Bool) :
    (1 ≤ p.page ∧ 1 ≤ p.page_size ∧ p.page_size ≤ 1000)
  ∧ p.offset = (p.page - 1) * p.page_size
  ∧ 0 ≤ p.offset
  ∧ (ContributorService.list_contributors db f p.offset.toNat p.page_size.toNat).fst.length
      ≤ 1000
  ∧ (∀ r, ContributorRouter.get_contributors_by_candidate db candidate_id rpage rps sort_by
        order ma mb st et df dt se inc = .ok r → r.contributors.length ≤ 1000) := by
  have hb : 1 ≤ p.page ∧ 1 ≤ p.page_size ∧ p.page_size ≤ 1000 := by
    unfold PaginationParams.validate at hv
    split at hv
    · rename_i hcond
      simp only [Option.some.injEq] at hv
      rw [← hv]
      exact hcond
    · exact absurd hv (by simp)
  refine ⟨hb, rfl, ?_, ?_, ?_⟩
  · exact mul_nonneg (by omega) (by omega)
  · have h1 : (ContributorService.list_contributors db f p.offset.toNat
        p.page_size.toNat).fst.length ≤ p.page_size.toNat := by
      unfold ContributorService.list_contributors
      exact List.length_take_le _ _
    have h2 : p.page_size.toNat ≤ 1000 := Int.toNat_le.mpr hb.2.2
    omega
  · intro r hr
    unfold ContributorRouter.get_contributors_by_candidate at hr
    by_cases hsv : (ContributorRouter.valid_sort_by.contains sort_by) = true
    · by_cases hov : (ContributorRouter.valid_order.contains order) = true
      · simp only [hsv, hov, Bool.not_true, Bool.false_eq_true, if_false] at hr
        cases hsvc : ContributorService.get_contributors_by_candidate db candidate_id
            { include_contributions := inc, sort_by := sort_by, order := order,
              min_amount := ma, max_amount := mb, state := normUpperOpt st,
              entity_type := normUpperOpt et, date_from := df, date_to := dt,
              search := se, offset := (rpage - 1) * rps, limit := rps } with
        | error e => rw [hsvc] at hr; exact absurd hr (by simp)
        | ok v =>
          rw [hsvc] at hr
          cases v with
          | none => exact absurd hr (by simp)
          | some r0 =>
            simp only [Except.ok.injEq] at hr
            have := by_candidate_resp_len db candidate_id _ r0 hsvc
            rw [hr] at this
            exact le_trans this hrps
      · simp only [hsv, Bool.not_true, Bool.false_eq_true, if_false,
          Bool.not_eq_true] at hr
        rw [Bool.not_eq_true] at hov
        rw [hov] at hr
        exact absurd hr (by simp)
    · rw [Bool.not_eq_true] at hsv
      rw [hsv] at hr
      exact absurd hr (by simp)

theorem C9_witness :
    ((1 : Int) ≤ (2 : Int) ∧ (1 : Int) ≤ (50 : Int) ∧ (50 : Int) ≤ 1000)
  ∧ PaginationParams.offset ⟨2, 50⟩ = ((2 : Int) - 1) * 50
  ∧ (0 : Int) ≤ PaginationParams.offset ⟨2, 50⟩
  ∧ (ContributorService.list_contributors dbEx {} (PaginationParams.offset ⟨2, 50⟩).toNat
      ((50 : Int)).toNat).fst.length ≤ 1000
  ∧ (∀ r, ContributorRouter.get_contributors_by_candidate dbEx 1 1 25 "total_amount"
        "desc" none none none none none none none false = .ok r →
        r.contributors.length ≤ 1000) :=
  C9_pagination_invariants 2 50 ⟨2, 50⟩ rfl dbEx {} 1 1 25 "total_amount" "desc"
    (by decide) none none none none none none none false

/-! ## Trace shape lemmas for C1 -/

theorem fetch_stmts_prop (x : Except SvcError BranchOut) (cond : BranchOut → Bool) :
    ∀ s ∈ ((match x with
            | .error _ => []
            | .ok br => if cond br then [sel [.goldContribution]] else []) : List Stmt),
      s.rels = [Relation.goldContribution] ∧ s.agg = false := by
  cases x with
  | error e => intro s hs; simp at hs
  | ok br =>
    intro s hs
    by_cases hc : cond br = true
    · simp only [hc, if_true, List.mem_singleton] at hs
      subst hs
      exact ⟨rfl, rfl⟩
    · rw [Bool.not_eq_true] at hc
      simp [hc] at hs

theorem name_stmts_prop (cid : Option Nat) :
    ∀ s ∈ ((match cid with
            | some c => if c == 0 then [] else [sel [.goldCandidate]]
            | none => []) : List Stmt),
      s.rels = [Relation.goldCandidate] ∧ s.agg = false := by
  cases cid with
  | none => intro s hs; simp at hs
  | some c =>
    intro s hs
    by_cases hc : (c == 0) = true
    · simp [hc] at hs
    · rw [Bool.not_eq_true] at hc
      simp only [hc, Bool.false_eq_true, if_false, List.mem_singleton] at hs
      subst hs
      exact ⟨rfl, rfl⟩

theorem use_mv_false_of_some_date (a : ContributorsByArgs)
    (h : ¬(a.date_from = none ∧ a.date_to = none)) :
    (a.date_from.isNone && a.date_to.isNone) = false := by
  cases hdf : a.date_from with
  | some d => simp
  | none =>
    cases hdt : a.date_to with
    | some d => simp
    | none => exact absurd ⟨hdf, hdt⟩ h

theorem byCandidateTrace_mv_shape (db : DB) (cid : Nat) (a : ContributorsByArgs)
    (cand : GoldCandidate) (col : SortCol)
    (hcand : oneOrNone (db.candidates.filter (fun c => c.id == cid)) = .ok (some cand))
    (hdf : a.date_from = none) (hdt : a.date_to = none)
    (hcol : lookupSortCol mvSortColumnMapCand a.sort_by = some col) :
    byCandidateTrace db cid a =
      sel [.goldCandidate] ::
      ([sel [.mvContributorCandidateStats, .goldContributor] true,
        sel [.goldContributor, .mvContributorCandidateStats],
        sel [.mvContributorCandidateStats] true] ++
       (match mvBranchCand db cid a with
        | .error _ => []
        | .ok br =>
          if a.include_contributions && !(br.rows.map (fun r => r.contributor_id)).isEmpty
          then [sel [.goldContribution]] else [])) := by
  unfold byCandidateTrace
  rw [hcand, hdf, hdt]
  simp [hcol, hdf, hdt]

theorem byCandidateTrace_live_shape (db : DB) (cid : Nat) (a : ContributorsByArgs)
    (cand : GoldCandidate) (col : SortCol)
    (hcand : oneOrNone (db.candidates.filter (fun c => c.id == cid)) = .ok (some cand))
    (hB : (a.date_from.isNone && a.date_to.isNone) = false)
    (hcol : lookupSortCol liveSortColumnMapCand a.sort_by = some col) :
    byCandidateTrace db cid a =
      sel [.goldCandidate] ::
      ([sel [.goldContributor, .goldContribution] true,
        sel [.goldContributor, .goldContribution] true,
        sel [.goldContribution] true] ++
       (match liveBranch db (candContribFilter cid a.date_from a.date_to)
                liveSortColumnMapCand a with
        | .error _ => []
        | .ok br =>
          if a.include_contributions && !(br.rows.map (fun r => r.contributor_id)).isEmpty
          then [sel [.goldContribution]] else [])) := by
  unfold byCandidateTrace
  rw [hcand, hB]
  simp [hcol]

theorem byCommitteeTrace_mv_shape (db : DB) (cid : Nat) (a : ContributorsByArgs)
    (comm : GoldCommittee) (col : SortCol)
    (hcomm : oneOrNone (db.committees.filter (fun c => c.id == cid)) = .ok (some comm))
    (hdf : a.date_from = none) (hdt : a.date_to = none)
    (hcol : lookupSortCol mvSortColumnMapComm a.sort_by = some col) :
    byCommitteeTrace db cid a =
      sel [.goldCommittee] ::
      ((match comm.candidate_id with
        | some c => if c == 0 then ([] : List Stmt) else [sel [.goldCandidate]]
        | none => []) ++
       ([sel [.mvContributorCommitteeStats, .goldContributor] true,
         sel [.goldContributor, .mvContributorCommitteeStats],
         sel [.mvContributorCommitteeStats] true] ++
        (match mvBranchComm db cid a with
         | .error _ => []
         | .ok br =>
           if a.include_contributions && !(br.rows.map (fun r => r.contributor_id)).isEmpty
           then [sel [.goldContribution]] else []))) := by
  unfold byCommitteeTrace
  rw [hcomm, hdf, hdt]
  simp [hcol, hdf, hdt]

theorem byCommitteeTrace_live_shape (db : DB) (cid : Nat) (a : ContributorsByArgs)
    (comm : GoldCommittee) (col : SortCol)
    (hcomm : oneOrNone (db.committees.filter (fun c => c.id == cid)) = .ok (some comm))
    (hB : (a.date_from.isNone && a.date_to.isNone) = false)
    (hcol : lookupSortCol liveSortColumnMapComm a.sort_by = some col) :
    byCommitteeTrace db cid a =
      sel [.goldCommittee] ::
      ((match comm.candidate_id with
        | some c => if c == 0 then ([] : List Stmt) else [sel [.goldCandidate]]
        | none => []) ++
       ([sel [.goldContributor, .goldContribution] true,
         sel [.goldContributor, .goldContribution] true,
         sel [.goldContribution] true] ++
        (match liveBranch db (commContribFilter cid a.date_from a.date_to)
                 liveSortColumnMapComm a with
         | .error _ => []
         | .ok br =>
           if a.include_contributions && !(br.rows.map (fun r => r.contributor_id)).isEmpty
           then [sel [.goldContribution]] else []))) := by
  unfold byCommitteeTrace
  rw [hcomm, hB]
  simp [hcol]

/-- C1: in both `get_contributors_by_candidate` and
`get_contributors_by_committee` the materialized-view query path is taken
exactly when both `date_from` and `date_to` are `None`; whenever at least one
date bound is supplied, the live aggregation over the contributions table is
used instead. Stated over the statement traces: a materialized view is read
iff both bounds are `None`, and an aggregate statement over
`gold_contribution` is executed iff a bound is supplied. -/
theorem C1_mv_path_selection (db : DB) (candidate_id committee_id : Nat)
    (a : ContributorsByArgs) (cand : GoldCandidate) (comm : GoldCommittee)
    (hcand : oneOrNone (db.candidates.filter (fun c => c.id == candidate_id)) =
      .ok (some cand))
    (hcomm : oneOrNone (db.committees.filter (fun c => c.id == committee_id)) =
      .ok (some comm))
    (hsort : a.sort_by ∈ ContributorRouter.valid_sort_by) :
    ((∃ s ∈ byCandidateTrace db candidate_id a,
        Relation.mvContributorCandidateStats ∈ s.rels) ↔
      (a.date_from = none ∧ a.date_to = none))
  ∧ ((∃ s ∈ byCandidateTrace db candidate_id a,
        s.agg = true ∧ Relation.goldContribution ∈ s.rels) ↔
      ¬(a.date_from = none ∧ a.date_to = none))
  ∧ ((∃ s ∈ byCommitteeTrace db committee_id a,
        Relation.mvContributorCommitteeStats ∈ s.rels) ↔
      (a.date_from = none ∧ a.date_to = none))
  ∧ ((∃ s ∈ byCommitteeTrace db committee_id a,
        s.agg = true ∧ Relation.goldContribution ∈ s.rels) ↔
      ¬(a.date_from = none ∧ a.date_to = none)) := by
  obtain ⟨col, hMv, hLive, hMvC, hLiveC⟩ := lookup_sort_of_valid a.sort_by hsort
  by_cases hdn : a.date_from = none ∧ a.date_to = none
  · obtain ⟨hdf, hdt⟩ := hdn
    rw [byCandidateTrace_mv_shape db candidate_id a cand col hcand hdf hdt hMv,
        byCommitteeTrace_mv_shape db committee_id a comm col hcomm hdf hdt hMvC]
    refine ⟨?_, ?_, ?_, ?_⟩
    · refine iff_of_true
        ⟨sel [.mvContributorCandidateStats, .goldContributor] true, ?_, by decide⟩ ⟨hdf, hdt⟩
      exact List.mem_cons_of_mem _ (List.mem_append_left _ (List.mem_cons_self _ _))
    · refine iff_of_false ?_ (fun hcon => hcon ⟨hdf, hdt⟩)
      rintro ⟨s, hmem, hagg, hrel⟩
      rcases List.mem_cons.mp hmem with h0 | h1
      · subst h0; exact absurd hrel (by decide)
      rcases List.mem_append.mp h1 with h2 | h3
      · simp only [List.mem_cons, List.not_mem_nil, or_false] at h2
        rcases h2 with h | h | h <;> subst h
        · exact absurd hrel (by decide)
        · exact absurd hagg (by decide)
        · exact absurd hrel (by decide)
      · obtain ⟨_, hg⟩ := fetch_stmts_prop (mvBranchCand db candidate_id a) _ s h3
        simp [hg] at hagg
    · refine iff_of_true
        ⟨sel [.mvContributorCommitteeStats, .goldContributor] true, ?_, by decide⟩ ⟨hdf, hdt⟩
      exact List.mem_cons_of_mem _
        (List.mem_append_right _ (List.mem_append_left _ (List.mem_cons_self _ _)))
    · refine iff_of_false ?_ (fun hcon => hcon ⟨hdf, hdt⟩)
      rintro ⟨s, hmem, hagg, hrel⟩
      rcases List.mem_cons.mp hmem with h0 | h1
      · subst h0; exact absurd hrel (by decide)
      rcases List.mem_append.mp h1 with hN | h2
      · obtain ⟨hr, _⟩ := name_stmts_prop comm.candidate_id s hN
        rw [hr] at hrel
        exact absurd hrel (by decide)
      rcases List.mem_append.mp h2 with h2a | h3
      · simp only [List.mem_cons, List.not_mem_nil, or_false] at h2a
        rcases h2a with h | h | h <;> subst h
        · exact absurd hrel (by decide)
        · exact absurd hagg (by decide)
        · exact absurd hrel (by decide)
      · obtain ⟨_, hg⟩ := fetch_stmts_prop (mvBranchComm db committee_id a) _ s h3
        simp [hg] at hagg
  · have hB := use_mv_false_of_some_date a hdn
    rw [byCandidateTrace_live_shape db candidate_id a cand col hcand hB hLive,
        byCommitteeTrace_live_shape db committee_id a comm col hcomm hB hLiveC]
    refine ⟨?_, ?_, ?_, ?_⟩
    · refine iff_of_false ?_ hdn
      rintro ⟨s, hmem, hrel⟩
      rcases List.mem_cons.mp hmem with h0 | h1
      · subst h0; exact absurd hrel (by decide)
      rcases List.mem_append.mp h1 with h2 | h3
      · simp only [List.mem_cons, List.not_mem_nil, or_false] at h2
        rcases h2 with h | h | h <;> subst h
        · exact absurd hrel (by decide)
        · exact absurd hrel (by decide)
        · exact absurd hrel (by decide)
      · obtain ⟨hr, _⟩ := fetch_stmts_prop
          (liveBranch db (candContribFilter candidate_id a.date_from a.date_to)
            liveSortColumnMapCand a) _ s h3
        rw [hr] at hrel
        exact absurd hrel (by decide)
    · refine iff_of_true ⟨sel [.goldContributor, .goldContribution] true, ?_, rfl, by decide⟩ hdn
      exact List.mem_cons_of_mem _ (List.mem_append_left _ (List.mem_cons_self _ _))
    · refine iff_of_false ?_ hdn
      rintro ⟨s, hmem, hrel⟩
      rcases List.mem_cons.mp hmem with h0 | h1
      · subst h0; exact absurd hrel (by decide)
      rcases List.mem_append.mp h1 with hN | h2
      · obtain ⟨hr, _⟩ := name_stmts_prop comm.candidate_id s hN
        rw [hr] at hrel
        exact absurd hrel (by decide)
      rcases List.mem_append.mp h2 with h2a | h3
      · simp only [List.mem_cons, List.not_mem_nil, or_false] at h2a
        rcases h2a with h | h | h <;> subst h
        · exact absurd hrel (by decide)
        · exact absurd hrel (by decide)
        · exact absurd hrel (by decide)
      · obtain ⟨hr, _⟩ := fetch_stmts_prop
          (liveBranch db (commContribFilter committee_id a.date_from a.date_to)
            liveSortColumnMapComm a) _ s h3
        rw [hr] at hrel
        exact absurd hrel (by decide)
    · refine iff_of_true ⟨sel [.goldContributor, .goldContribution] true, ?_, rfl, by decide⟩ hdn
      exact List.mem_cons_of_mem _
        (List.mem_append_right _ (List.mem_append_left _ (List.mem_cons_self _ _)))

theorem C1_witness :
    ((∃ s ∈ byCandidateTrace dbEx 1 {},
        Relation.mvContributorCandidateStats ∈ s.rels) ↔
      (({} : ContributorsByArgs).date_from = none ∧ ({} : ContributorsByArgs).date_to = none))
  ∧ ((∃ s ∈ byCandidateTrace dbEx 1 {},
        s.agg = true ∧ Relation.goldContribution ∈ s.rels) ↔
      ¬(({} : ContributorsByArgs).date_from = none ∧ ({} : ContributorsByArgs).date_to = none))
  ∧ ((∃ s ∈ byCommitteeTrace dbEx 5 {},
        Relation.mvContributorCommitteeStats ∈ s.rels) ↔
      (({} : ContributorsByArgs).date_from = none ∧ ({} : ContributorsByArgs).date_to = none))
  ∧ ((∃ s ∈ byCommitteeTrace dbEx 5 {},
        s.agg = true ∧ Relation.goldContribution ∈ s.rels) ↔
      ¬(({} : ContributorsByArgs).date_from = none ∧
        ({} : ContributorsByArgs).date_to = none)) :=
  C1_mv_path_selection dbEx 1 5 {} candEx commEx rfl rfl (by decide)

/-! ## C4: the application is read-only -/

theorem applyStmt_select (db : DB) (s : Stmt) (h : s.kind = StmtKind.select) :
    applyStmt db s = db := by
  unfold applyStmt
  rw [h]

theorem fetch_stmts_eq (x : Except SvcError BranchOut) (cond : BranchOut → Bool) :
    ∀ s ∈ ((match x with
            | .error _ => []
            | .ok br => if cond br then [sel [.goldContribution]] else []) : List Stmt),
      s = sel [.goldContribution] := by
  cases x with
  | error e => intro s hs; simp at hs
  | ok br =>
    intro s hs
    by_cases hc : cond br = true
    · simp only [hc, if_true, List.mem_singleton] at hs
      exact hs
    · rw [Bool.not_eq_true] at hc
      simp [hc] at hs

theorem name_stmts_eq (cid : Option Nat) :
    ∀ s ∈ ((match cid with
            | some c => if c == 0 then [] else [sel [.goldCandidate]]
            | none => []) : List Stmt),
      s = sel [.goldCandidate] := by
  cases cid with
  | none => intro s hs; simp at hs
  | some c =>
    intro s hs
    by_cases hc : (c == 0) = true
    · simp [hc] at hs
    · rw [Bool.not_eq_true] at hc
      simp only [hc, Bool.false_eq_true, if_false, List.mem_singleton] at hs
      exact hs

/-- C4: every statement template the application can issue is a SELECT, and
executing any sequence of statements drawn from that set leaves the database
state (all tables and materialized views) unchanged; in particular the
statement traces of the two heaviest endpoints stay inside the template set. -/
theorem C4_read_only :
    (∀ s ∈ appStatements, s.kind = StmtKind.select)
  ∧ (∀ (db : DB) (l : List Stmt), (∀ s ∈ l, s ∈ appStatements) → execStmts db l = db)
  ∧ (∀ (db : DB) (cid : Nat) (a : ContributorsByArgs) (s : Stmt),
       s ∈ byCandidateTrace db cid a → s ∈ appStatements)
  ∧ (∀ (db : DB) (cid : Nat) (a : ContributorsByArgs) (s : Stmt),
       s ∈ byCommitteeTrace db cid a → s ∈ appStatements) := by
  have hall : ∀ s ∈ appStatements, s.kind = StmtKind.select := by decide
  refine ⟨hall, ?_, ?_, ?_⟩
  · intro db l h
    induction l generalizing db with
    | nil => rfl
    | cons s t ih =>
      have hk : s.kind = StmtKind.select := hall s (h s (List.mem_cons_self s t))
      show execStmts (applyStmt db s) t = db
      rw [applyStmt_select db s hk]
      exact ih db (fun x hx => h x (List.mem_cons_of_mem s hx))
  · intro db cid a s hs
    unfold byCandidateTrace at hs
    cases hone : oneOrNone (db.candidates.filter (fun c => c.id == cid)) with
    | error e =>
      rw [hone] at hs
      simp only [List.mem_singleton] at hs
      subst hs; decide
    | ok candO =>
      rw [hone] at hs
      cases candO with
      | none =>
        simp only [List.mem_singleton] at hs
        subst hs; decide
      | some cand =>
        rcases List.mem_cons.mp hs with h0 | h1
        · subst h0; decide
        rcases List.mem_append.mp h1 with h2 | h3
        · cases hmv : (a.date_from.isNone && a.date_to.isNone) with
          | true =>
            rw [hmv] at h2
            simp only [if_true] at h2
            cases hl : lookupSortCol mvSortColumnMapCand a.sort_by with
            | none => rw [hl] at h2; simp at h2
            | some col =>
              rw [hl] at h2
              simp only [List.mem_cons, List.not_mem_nil, or_false] at h2
              rcases h2 with h | h | h <;> (subst h; decide)
          | false =>
            rw [hmv] at h2
            simp only [Bool.false_eq_true, if_false] at h2
            cases hl : lookupSortCol liveSortColumnMapCand a.sort_by with
            | none => rw [hl] at h2; simp at h2
            | some col =>
              rw [hl] at h2
              simp only [List.mem_cons, List.not_mem_nil, or_false] at h2
              rcases h2 with h | h | h <;> (subst h; decide)
        · rw [fetch_stmts_eq _ _ s h3]; decide
  · intro db cid a s hs
    unfold byCommitteeTrace at hs
    cases hone : oneOrNone (db.committees.filter (fun c => c.id == cid)) with
    | error e =>
      rw [hone] at hs
      simp only [List.mem_singleton] at hs
      subst hs; decide
    | ok commO =>
      rw [hone] at hs
      cases commO with
      | none =>
        simp only [List.mem_singleton] at hs
        subst hs; decide
      | some comm =>
        rcases List.mem_cons.mp hs with h0 | h1
        · subst h0; decide
        rcases List.mem_append.mp h1 with h12 | h3
        swap
        · rw [fetch_stmts_eq _ _ s h3]; decide
        rcases List.mem_append.mp h12 with hN | h2a
        · rw [name_stmts_eq comm.candidate_id s hN]; decide
        · cases hmv : (a.date_from.isNone && a.date_to.isNone) with
          | true =>
            rw [hmv] at h2a
            simp only [if_true] at h2a
            cases hl : lookupSortCol mvSortColumnMapComm a.sort_by with
            | none => rw [hl] at h2a; simp at h2a
            | some col =>
              rw [hl] at h2a
              simp only [List.mem_cons, List.not_mem_nil, or_false] at h2a
              rcases h2a with h | h | h <;> (subst h; decide)
          | false =>
            rw [hmv] at h2a
            simp only [Bool.false_eq_true, if_false] at h2a
            cases hl : lookupSortCol liveSortColumnMapComm a.sort_by with
            | none => rw [hl] at h2a; simp at h2a
            | some col =>
              rw [hl] at h2a
              simp only [List.mem_cons, List.not_mem_nil, or_false] at h2a
              rcases h2a with h | h | h <;> (subst h; decide)

/-! ## Generic grouped-aggregation lemmas (the SQL fact that summing group
aggregates over a partition recovers the whole-table aggregate) -/

theorem foldr_map_const_e {G M : Type} (op : M → M → M) (e : M)
    (hidl : ∀ m, op e m = m) (l : List G) :
    (l.map (fun _ => e)).foldr op e = e := by
  induction l with
  | nil => rfl
  | cons g gs ih =>
    simp only [List.map_cons, List.foldr_cons]
    rw [ih, hidl]

theorem foldr_op_insert {G M : Type} (op : M → M → M) (e : M)
    (hassoc : ∀ x y z, op (op x y) z = op x (op y z))
    (hcomm : ∀ x y, op x y = op y x)
    (gs : List G) (gkey : G → Nat) (k : Nat) (x : M) (S : G → M)
    (hnd : (gs.map gkey).Nodup) (hk : k ∈ gs.map gkey) :
    (gs.map (fun g => if (k == gkey g) = true then op x (S g) else S g)).foldr op e
      = op x ((gs.map S).foldr op e) := by
  induction gs with
  | nil => simp at hk
  | cons g gs ih =>
    simp only [List.map_cons, List.nodup_cons] at hnd
    simp only [List.map_cons, List.mem_cons] at hk
    by_cases hkg : k = gkey g
    · have hbt : (k == gkey g) = true := by simp [hkg]
      have htail : gs.map (fun g' => if (k == gkey g') = true then op x (S g') else S g')
          = gs.map S := by
        rw [List.map_eq_map_iff]
        intro g' hg'
        have hbf : (k == gkey g') = false := by
          simp only [beq_eq_false_iff_ne, ne_eq]
          intro he
          apply hnd.1
          rw [hkg] at he
          rw [he]
          exact List.mem_map_of_mem gkey hg'
        simp [hbf]
      simp only [List.map_cons, List.foldr_cons, hbt, if_true, htail]
      rw [hassoc]
    · have hbf : (k == gkey g) = false := by
        simp only [beq_eq_false_iff_ne, ne_eq]
        exact hkg
      have hk' : k ∈ gs.map gkey := hk.resolve_left hkg
      simp only [List.map_cons, List.foldr_cons, hbf, Bool.false_eq_true, if_false]
      rw [ih hnd.2 hk']
      rw [← hassoc, hcomm (S g) x, hassoc]

theorem foldr_op_groups {G C M : Type} (op : M → M → M) (e : M)
    (hassoc : ∀ x y z, op (op x y) z = op x (op y z))
    (hcomm : ∀ x y, op x y = op y x)
    (hidl : ∀ m, op e m = m)
    (gs : List G) (gkey : G → Nat) (cs : List C) (ck : C → Nat) (f : C → M)
    (hnd : (gs.map gkey).Nodup) (hri : ∀ c ∈ cs, ck c ∈ gs.map gkey) :
    (gs.map (fun g =>
        ((cs.filter (fun c => ck c == gkey g)).map f).foldr op e)).foldr op e
      = (cs.map f).foldr op e := by
  induction cs with
  | nil =>
    simp only [List.filter_nil, List.map_nil, List.foldr_nil]
    exact foldr_map_const_e op e hidl gs
  | cons c cs ih =>
    have hmap : gs.map (fun g =>
          (((c :: cs).filter (fun x => ck x == gkey g)).map f).foldr op e)
        = gs.map (fun g =>
            if (ck c == gkey g) = true
            then op (f c) (((cs.filter (fun x => ck x == gkey g)).map f).foldr op e)
            else ((cs.filter (fun x => ck x == gkey g)).map f).foldr op e) := by
      rw [List.map_eq_map_iff]
      intro g _
      rw [List.filter_cons]
      by_cases h : (ck c == gkey g) = true
      · simp [h]
      · rw [Bool.not_eq_true] at h
        simp [h]
    rw [hmap,
      foldr_op_insert op e hassoc hcomm gs gkey (ck c) (f c) _ hnd
        (hri c (List.mem_cons_self c cs)),
      ih (fun c' h => hri c' (List.mem_cons_of_mem _ h)),
      List.map_cons, List.foldr_cons]

theorem foldr_op_filterMap {G R M : Type} (op : M → M → M) (e : M)
    (hidl : ∀ m, op e m = m)
    (gs : List G) (F : G → Option R) (h : R → M) (w : G → M)
    (hw : ∀ g ∈ gs, (match F g with | none => e | some r => h r) = w g) :
    ((gs.filterMap F).map h).foldr op e = (gs.map w).foldr op e := by
  induction gs with
  | nil => rfl
  | cons g gs ih =>
    have hwg := hw g (List.mem_cons_self g gs)
    have hwt : ∀ g' ∈ gs, (match F g' with | none => e | some r => h r) = w g' :=
      fun g' hg' => hw g' (List.mem_cons_of_mem _ hg')
    rw [List.filterMap_cons]
    cases hF : F g with
    | none =>
      rw [hF] at hwg
      simp only [List.map_cons, List.foldr_cons, ← hwg]
      rw [ih hwt, hidl]
    | some r =>
      rw [hF] at hwg
      simp only [List.map_cons, List.foldr_cons, ← hwg]
      rw [ih hwt]

/-! ## omin / omax monoid facts, fold bridges -/

theorem omin_assoc (x y z : Option Nat) : omin (omin x y) z = omin x (omin y z) := by
  cases x <;> cases y <;> cases z <;> simp [omin, Nat.min_assoc]

theorem omin_comm (x y : Option Nat) : omin x y = omin y x := by
  cases x <;> cases y <;> simp [omin, Nat.min_comm]

theorem omin_none_left (m : Option Nat) : omin none m = m := by
  cases m <;> rfl

theorem omax_assoc (x y z : Option Nat) : omax (omax x y) z = omax x (omax y z) := by
  cases x <;> cases y <;> cases z <;> simp [omax, Nat.max_assoc]

theorem omax_comm (x y : Option Nat) : omax x y = omax y x := by
  cases x <;> cases y <;> simp [omax, Nat.max_comm]

theorem omax_none_left (m : Option Nat) : omax none m = m := by
  cases m <;> rfl

theorem listMinO_eq_foldr (l : List Nat) :
    listMinO l = (l.map some).foldr omin none := by
  induction l with
  | nil => rfl
  | cons x xs ih => simp only [listMinO, List.foldr_cons, List.map_cons] at ih ⊢; rw [ih]

theorem listMaxO_eq_foldr (l : List Nat) :
    listMaxO l = (l.map some).foldr omax none := by
  induction l with
  | nil => rfl
  | cons x xs ih => simp only [listMaxO, List.foldr_cons, List.map_cons] at ih ⊢; rw [ih]

theorem sum_map_const_one {C : Type} (l : List C) :
    (l.map (fun _ => (1 : Nat))).sum = l.length := by
  induction l with
  | nil => rfl
  | cons x xs ih => simp [ih]; omega

/-! ## C2: the materialized-view path refines the live-aggregation path -/

theorem candAggOpt_keys (db : DB) (k : Nat) (gc : GoldContributor)
    (r : MvContributorCandidateStats) (h : candAggOpt db k gc = some r) :
    r.candidate_id = k ∧ r.contributor_id = gc.id := by
  unfold candAggOpt at h
  simp only [] at h
  split at h
  · exact absurd h (by simp)
  · rw [Option.some.injEq] at h
    rw [← h]
    exact ⟨rfl, rfl⟩

theorem commAggOpt_keys (db : DB) (k : Nat) (gc : GoldContributor)
    (r : MvContributorCommitteeStats) (h : commAggOpt db k gc = some r) :
    r.committee_id = k ∧ r.contributor_id = gc.id := by
  unfold commAggOpt at h
  simp only [] at h
  split at h
  · exact absurd h (by simp)
  · rw [Option.some.injEq] at h
    rw [← h]
    exact ⟨rfl, rfl⟩

theorem flatMap_candAgg_filter (db : DB) (cands : List GoldCandidate) (cid : Nat)
    (hnd : (cands.map (fun c => c.id)).Nodup)
    (hmem : ∃ c ∈ cands, c.id = cid) :
    (cands.flatMap (fun cand => db.contributors.filterMap (candAggOpt db cand.id))).filter
        (fun r => r.candidate_id == cid)
      = db.contributors.filterMap (candAggOpt db cid) := by
  induction cands with
  | nil =>
    obtain ⟨c, hc, _⟩ := hmem
    simp at hc
  | cons c0 cs ih =>
    simp only [List.map_cons, List.nodup_cons] at hnd
    rw [List.flatMap_cons, List.filter_append]
    by_cases hc0 : c0.id = cid
    · have hblock : (db.contributors.filterMap (candAggOpt db c0.id)).filter
          (fun r => r.candidate_id == cid)
          = db.contributors.filterMap (candAggOpt db c0.id) := by
        rw [List.filter_eq_self]
        intro r hr
        obtain ⟨gc, _, hgc⟩ := List.mem_filterMap.mp hr
        have hk := (candAggOpt_keys db c0.id gc r hgc).1
        simp [hk, hc0]
      have hrest : (cs.flatMap
            (fun cand => db.contributors.filterMap (candAggOpt db cand.id))).filter
          (fun r => r.candidate_id == cid) = [] := by
        rw [List.filter_eq_nil_iff]
        intro r hr
        obtain ⟨cand, hcand, hrb⟩ := List.mem_flatMap.mp hr
        obtain ⟨gc, _, hgc⟩ := List.mem_filterMap.mp hrb
        have hkey := (candAggOpt_keys db cand.id gc r hgc).1
        simp only [hkey, beq_iff_eq]
        intro heq
        apply hnd.1
        rw [hc0, ← heq]
        exact List.mem_map_of_mem _ hcand
      rw [hblock, hrest, List.append_nil, hc0]
    · have hblock : (db.contributors.filterMap (candAggOpt db c0.id)).filter
          (fun r => r.candidate_id == cid) = [] := by
        rw [List.filter_eq_nil_iff]
        intro r hr
        obtain ⟨gc, _, hgc⟩ := List.mem_filterMap.mp hr
        have hk := (candAggOpt_keys db c0.id gc r hgc).1
        simp [hk, hc0]
      have hmem' : ∃ c ∈ cs, c.id = cid := by
        obtain ⟨c, hc, hcc⟩ := hmem
        rcases List.mem_cons.mp hc with he | hm
        · exact absurd (he ▸ hcc) hc0
        · exact ⟨c, hm, hcc⟩
      rw [hblock, List.nil_append]
      exact ih hnd.2 hmem'

theorem flatMap_commAgg_filter (db : DB) (comms : List GoldCommittee) (cid : Nat)
    (hnd : (comms.map (fun c => c.id)).Nodup)
    (hmem : ∃ c ∈ comms, c.id = cid) :
    (comms.flatMap (fun comm => db.contributors.filterMap (commAggOpt db comm.id))).filter
        (fun r => r.committee_id == cid)
      = db.contributors.filterMap (commAggOpt db cid) := by
  induction comms with
  | nil =>
    obtain ⟨c, hc, _⟩ := hmem
    simp at hc
  | cons c0 cs ih =>
    simp only [List.map_cons, List.nodup_cons] at hnd
    rw [List.flatMap_cons, List.filter_append]
    by_cases hc0 : c0.id = cid
    · have hblock : (db.contributors.filterMap (commAggOpt db c0.id)).filter
          (fun r => r.committee_id == cid)
          = db.contributors.filterMap (commAggOpt db c0.id) := by
        rw [List.filter_eq_self]
        intro r hr
        obtain ⟨gc, _, hgc⟩ := List.mem_filterMap.mp hr
        have hk := (commAggOpt_keys db c0.id gc r hgc).1
        simp [hk, hc0]
      have hrest : (cs.flatMap
            (fun comm => db.contributors.filterMap (commAggOpt db comm.id))).filter
          (fun r => r.committee_id == cid) = [] := by
        rw [List.filter_eq_nil_iff]
        intro r hr
        obtain ⟨comm, hcomm, hrb⟩ := List.mem_flatMap.mp hr
        obtain ⟨gc, _, hgc⟩ := List.mem_filterMap.mp hrb
        have hkey := (commAggOpt_keys db comm.id gc r hgc).1
        simp only [hkey, beq_iff_eq]
        intro heq
        apply hnd.1
        rw [hc0, ← heq]
        exact List.mem_map_of_mem _ hcomm
      rw [hblock, hrest, List.append_nil, hc0]
    · have hblock : (db.contributors.filterMap (commAggOpt db c0.id)).filter
          (fun r => r.committee_id == cid) = [] := by
        rw [List.filter_eq_nil_iff]
        intro r hr
        obtain ⟨gc, _, hgc⟩ := List.mem_filterMap.mp hr
        have hk := (commAggOpt_keys db c0.id gc r hgc).1
        simp [hk, hc0]
      have hmem' : ∃ c ∈ cs, c.id = cid := by
        obtain ⟨c, hc, hcc⟩ := hmem
        rcases List.mem_cons.mp hc with he | hm
        · exact absurd (he ▸ hcc) hc0
        · exact ⟨c, hm, hcc⟩
      rw [hblock, List.nil_append]
      exact ih hnd.2 hmem'

theorem filterMap_filter_by_key {G R : Type} (gs : List G) (gkey : G → Nat)
    (F : G → Option R) (rkey : R → Nat)
    (hgen : ∀ g r, F g = some r → rkey r = gkey g)
    (hnd : (gs.map gkey).Nodup) :
    ∀ g0 ∈ gs, (gs.filterMap F).filter (fun r => rkey r == gkey g0) = (F g0).toList := by
  induction gs with
  | nil => intro g0 h; simp at h
  | cons g gs ih =>
    intro g0 hg0
    simp only [List.map_cons, List.nodup_cons] at hnd
    rcases List.mem_cons.mp hg0 with he | hm
    · subst he
      have htail : (gs.filterMap F).filter (fun r => rkey r == gkey g0) = [] := by
        rw [List.filter_eq_nil_iff]
        intro r hr
        obtain ⟨g', hg', hFg'⟩ := List.mem_filterMap.mp hr
        have hk := hgen g' r hFg'
        simp only [hk, beq_iff_eq]
        intro he'
        apply hnd.1
        rw [← he']
        exact List.mem_map_of_mem gkey hg'
      cases hF : F g0 with
      | none =>
        simp only [List.filterMap_cons, hF]
        exact htail
      | some r =>
        have hrt : (rkey r == gkey g0) = true := by simp [hgen g0 r hF]
        simp only [List.filterMap_cons, hF, List.filter_cons, hrt, if_true, htail]
        rfl
    · have hne : gkey g0 ≠ gkey g := by
        intro he
        apply hnd.1
        rw [← he]
        exact List.mem_map_of_mem gkey hm
      cases hF : F g with
      | none =>
        simp only [List.filterMap_cons, hF]
        exact ih hnd.2 g0 hm
      | some r =>
        have hrf : (rkey r == gkey g0) = false := by
          have hk := hgen g r hF
          simp only [hk, beq_eq_false_iff_ne, ne_eq]
          exact fun hc => hne hc.symm
        simp only [List.filterMap_cons, hF, List.filter_cons, hrf, Bool.false_eq_true, if_false]
        exact ih hnd.2 g0 hm

theorem flatMap_toList_eq_filterMap {A B : Type} (l : List A) (F : A → Option B) :
    l.flatMap (fun a => (F a).toList) = l.filterMap F := by
  induction l with
  | nil => rfl
  | cons a t ih =>
    rw [List.flatMap_cons, List.filterMap_cons]
    cases F a with
    | none => simpa using ih
    | some b => simpa using ih

theorem filterMap_congr_mem {A B : Type} (l : List A) (f g : A → Option B)
    (h : ∀ a ∈ l, f a = g a) : l.filterMap f = l.filterMap g := by
  induction l with
  | nil => rfl
  | cons a t ih =>
    rw [List.filterMap_cons, List.filterMap_cons, h a (List.mem_cons_self a t),
      ih (fun x hx => h x (List.mem_cons_of_mem _ hx))]

theorem group_filter_eq (cs0 : List GoldContribution) (bf : GoldContribution → Bool)
    (gid : Nat) :
    cs0.filter (fun x => bf x && x.contributor_id == gid)
      = (cs0.filter bf).filter (fun x => x.contributor_id == gid) := by
  rw [List.filter_filter]
  exact List.filter_congr (fun a _ => Bool.and_comm (bf a) (a.contributor_id == gid))


theorem candAggOpt_map_joinRow (db : DB) (cid : Nat) (gc : GoldContributor) :
    (candAggOpt db cid gc).map (joinRowCand gc)
      = liveAggRowOpt db (candContribFilter cid none none) gc := by
  unfold candAggOpt liveAggRowOpt
  simp only []
  cases hcs : db.contributions.filter
      (fun x => candContribFilter cid none none x && x.contributor_id == gc.id) with
  | nil => simp [hcs]
  | cons a t => simp [hcs, joinRowCand]

theorem commAggOpt_map_joinRow (db : DB) (cid : Nat) (gc : GoldContributor) :
    (commAggOpt db cid gc).map (joinRowComm gc)
      = liveAggRowOpt db (commContribFilter cid none none) gc := by
  unfold commAggOpt liveAggRowOpt
  simp only []
  cases hcs : db.contributions.filter
      (fun x => commContribFilter cid none none x && x.contributor_id == gc.id) with
  | nil => simp [hcs]
  | cons a t => simp [hcs, joinRowComm]

theorem mvJoinRowsCand_eq_live (db : DB) (cid : Nat)
    (hndC : (db.contributors.map (fun c => c.id)).Nodup)
    (hndA : (db.candidates.map (fun c => c.id)).Nodup)
    (hcand : ∃ c ∈ db.candidates, c.id = cid)
    (hmvC : db.mv_contributor_candidate_stats = computeMvCand db) :
    mvJoinRowsCand db cid = liveAggRows db (candContribFilter cid none none) := by
  unfold mvJoinRowsCand liveAggRows
  have hblock : (db.mv_contributor_candidate_stats).filter (fun r => r.candidate_id == cid)
      = db.contributors.filterMap (candAggOpt db cid) := by
    rw [hmvC]
    exact flatMap_candAgg_filter db db.candidates cid hndA hcand
  simp only [hblock]
  have hpt : ∀ gc ∈ db.contributors,
      ((db.contributors.filterMap (candAggOpt db cid)).filter
        (fun r => r.contributor_id == gc.id)).map (joinRowCand gc)
      = ((candAggOpt db cid gc).map (joinRowCand gc)).toList := by
    intro gc hgc
    rw [filterMap_filter_by_key db.contributors (fun c => c.id) (candAggOpt db cid)
      (fun r => r.contributor_id) (fun g r h => (candAggOpt_keys db cid g r h).2) hndC gc hgc]
    cases candAggOpt db cid gc <;> rfl
  refine (List.flatMap_congr hpt).trans ?_
  refine (flatMap_toList_eq_filterMap db.contributors
    (fun gc => (candAggOpt db cid gc).map (joinRowCand gc))).trans ?_
  exact filterMap_congr_mem _ _ _ (fun gc _ => candAggOpt_map_joinRow db cid gc)

theorem mvJoinRowsComm_eq_live (db : DB) (cid : Nat)
    (hndC : (db.contributors.map (fun c => c.id)).Nodup)
    (hndM : (db.committees.map (fun c => c.id)).Nodup)
    (hcomm : ∃ c ∈ db.committees, c.id = cid)
    (hmvM : db.mv_contributor_committee_stats = computeMvComm db) :
    mvJoinRowsComm db cid = liveAggRows db (commContribFilter cid none none) := by
  unfold mvJoinRowsComm liveAggRows
  have hblock : (db.mv_contributor_committee_stats).filter (fun r => r.committee_id == cid)
      = db.contributors.filterMap (commAggOpt db cid) := by
    rw [hmvM]
    exact flatMap_commAgg_filter db db.committees cid hndM hcomm
  simp only [hblock]
  have hpt : ∀ gc ∈ db.contributors,
      ((db.contributors.filterMap (commAggOpt db cid)).filter
        (fun r => r.contributor_id == gc.id)).map (joinRowComm gc)
      = ((commAggOpt db cid gc).map (joinRowComm gc)).toList := by
    intro gc hgc
    rw [filterMap_filter_by_key db.contributors (fun c => c.id) (commAggOpt db cid)
      (fun r => r.contributor_id) (fun g r h => (commAggOpt_keys db cid g r h).2) hndC gc hgc]
    cases commAggOpt db cid gc <;> rfl
  refine (List.flatMap_congr hpt).trans ?_
  refine (flatMap_toList_eq_filterMap db.contributors
    (fun gc => (commAggOpt db cid gc).map (joinRowComm gc))).trans ?_
  exact filterMap_congr_mem _ _ _ (fun gc _ => commAggOpt_map_joinRow db cid gc)

theorem length_filterMap_isSome {G R : Type} (gs : List G) (F : G → Option R) :
    (gs.filterMap F).length = (gs.filter (fun g => (F g).isSome)).length := by
  induction gs with
  | nil => rfl
  | cons g t ih =>
    rw [List.filterMap_cons, List.filter_cons]
    cases hF : F g with
    | none => simp [hF, ih]
    | some r => simp [hF, ih]

theorem filter_contains_length {G : Type} (gs : List G) (gkey : G → Nat) (L : List Nat)
    (hnd : (gs.map gkey).Nodup) (hsub : ∀ x ∈ L, x ∈ gs.map gkey) :
    (gs.filter (fun g => L.contains (gkey g))).length = L.dedup.length := by
  have h1 : (gs.filter (fun g => L.contains (gkey g))).length
      = ((gs.map gkey).filter (fun k => L.contains k)).length := by
    rw [List.filter_map, List.length_map]
    rfl
  rw [h1]
  have hndk : ((gs.map gkey).filter (fun k => L.contains k)).Nodup := hnd.filter _
  rw [← List.toFinset_card_of_nodup hndk, List.toFinset_filter]
  have hset : (gs.map gkey).toFinset.filter (fun k => L.contains k) = L.toFinset := by
    ext x
    simp only [Finset.mem_filter, List.mem_toFinset]
    constructor
    · rintro ⟨_, hc⟩
      exact List.mem_of_elem_eq_true hc
    · intro hx
      exact ⟨hsub x hx, List.elem_eq_true_of_mem hx⟩
  rw [hset, List.card_toFinset]

theorem summary_components {R : Type} (db : DB) (bf : GoldContribution → Bool)
    (F : GoldContributor → Option R)
    (amt : R → Int) (cnt : R → Nat) (fd ld : R → Option Nat)
    (hndC : (db.contributors.map (fun c => c.id)).Nodup)
    (hri : ∀ x ∈ db.contributions, x.contributor_id ∈ db.contributors.map (fun c => c.id))
    (hFnone : ∀ gc : GoldContributor, (F gc = none ↔
      (db.contributions.filter bf).filter (fun x => x.contributor_id == gc.id) = []))
    (hamt : ∀ gc r, F gc = some r → amt r =
      (((db.contributions.filter bf).filter
        (fun x => x.contributor_id == gc.id)).map (fun c => c.amount)).sum)
    (hcnt : ∀ gc r, F gc = some r → cnt r =
      ((db.contributions.filter bf).filter (fun x => x.contributor_id == gc.id)).length)
    (hfd : ∀ gc r, F gc = some r → fd r =
      listMinO (((db.contributions.filter bf).filter
        (fun x => x.contributor_id == gc.id)).map (fun c => c.contribution_date)))
    (hld : ∀ gc r, F gc = some r → ld r =
      listMaxO (((db.contributions.filter bf).filter
        (fun x => x.contributor_id == gc.id)).map (fun c => c.contribution_date))) :
    (db.contributors.filterMap F).length
        = ((db.contributions.filter bf).map (fun c => c.contributor_id)).dedup.length
  ∧ ((db.contributors.filterMap F).map amt).sum
        = ((db.contributions.filter bf).map (fun c => c.amount)).sum
  ∧ ((db.contributors.filterMap F).map cnt).sum = (db.contributions.filter bf).length
  ∧ ((db.contributors.filterMap F).map fd).foldr omin none
        = listMinO ((db.contributions.filter bf).map (fun c => c.contribution_date))
  ∧ ((db.contributors.filterMap F).map ld).foldr omax none
        = listMaxO ((db.contributions.filter bf).map (fun c => c.contribution_date)) := by
  have hri' : ∀ c ∈ db.contributions.filter bf,
      c.contributor_id ∈ db.contributors.map (fun c => c.id) :=
    fun c hc => hri c (List.mem_of_mem_filter hc)
  refine ⟨?_, ?_, ?_, ?_, ?_⟩
  · -- COUNT(*) over view rows = COUNT(DISTINCT contributor_id)
    rw [length_filterMap_isSome]
    have hcongr : db.contributors.filter (fun g => (F g).isSome)
        = db.contributors.filter (fun g =>
            ((db.contributions.filter bf).map (fun c => c.contributor_id)).contains g.id) := by
      apply List.filter_congr
      intro gc _
      cases hF : F gc with
      | none =>
        have hnil := (hFnone gc).mp hF
        have hnm : gc.id ∉ (db.contributions.filter bf).map (fun c => c.contributor_id) := by
          intro hm
          obtain ⟨c, hc, hcid⟩ := List.mem_map.mp hm
          have := (filter_key_eq_nil_iff (db.contributions.filter bf)
            (fun x => x.contributor_id) gc.id).mp hnil c hc
          exact this hcid
        simp only [Option.isSome_none]
        cases hcont : ((db.contributions.filter bf).map
            (fun c => c.contributor_id)).contains gc.id with
        | false => rfl
        | true => exact absurd (List.mem_of_elem_eq_true hcont) hnm
      | some r =>
        have hne : (db.contributions.filter bf).filter
            (fun x => x.contributor_id == gc.id) ≠ [] := by
          intro hnil
          rw [← hFnone gc] at hnil
          rw [hF] at hnil
          exact absurd hnil (by simp)
        have hm : gc.id ∈ (db.contributions.filter bf).map (fun c => c.contributor_id) := by
          cases hfil : (db.contributions.filter bf).filter
              (fun x => x.contributor_id == gc.id) with
          | nil => exact absurd hfil hne
          | cons c t =>
            have hcm : c ∈ (db.contributions.filter bf).filter
                (fun x => x.contributor_id == gc.id) := by
              rw [hfil]; exact List.mem_cons_self c t
            have h1 := List.mem_filter.mp hcm
            refine List.mem_map.mpr ⟨c, h1.1, ?_⟩
            simpa [beq_iff_eq] using h1.2
        simp only [Option.isSome_some]
        exact (List.elem_eq_true_of_mem hm).symm
    rw [hcongr]
    exact filter_contains_length db.contributors (fun c => c.id)
      ((db.contributions.filter bf).map (fun c => c.contributor_id)) hndC
      (fun x hx => by
        obtain ⟨c, hc, hcid⟩ := List.mem_map.mp hx
        rw [← hcid]
        exact hri' c hc)
  · -- SUM(total_amount) over view rows = SUM(amount)
    rw [List.sum_eq_foldr, List.sum_eq_foldr]
    refine (foldr_op_filterMap (· + ·) 0 (fun m => zero_add m) db.contributors F amt
      (fun gc => (((db.contributions.filter bf).filter
        (fun x => x.contributor_id == gc.id)).map (fun c => c.amount)).foldr (· + ·) 0)
      ?_).trans ?_
    · intro gc _
      cases hF : F gc with
      | none =>
        have hnil := (hFnone gc).mp hF
        simp [hnil]
      | some r =>
        have := hamt gc r hF
        simp only [this, List.sum_eq_foldr]
    · exact foldr_op_groups (· + ·) 0 (fun x y z => add_assoc x y z)
        (fun x y => add_comm x y) (fun m => zero_add m)
        db.contributors (fun c => c.id) (db.contributions.filter bf)
        (fun c => c.contributor_id) (fun c => c.amount) hndC hri'
  · -- SUM(contribution_count) over view rows = COUNT(*)
    rw [List.sum_eq_foldr]
    refine (foldr_op_filterMap (· + ·) 0 (fun m => Nat.zero_add m) db.contributors F cnt
      (fun gc => (((db.contributions.filter bf).filter
        (fun x => x.contributor_id == gc.id)).map (fun _ => (1 : Nat))).foldr (· + ·) 0)
      ?_).trans ?_
    · intro gc _
      cases hF : F gc with
      | none =>
        have hnil := (hFnone gc).mp hF
        simp [hnil]
      | some r =>
        have h1 := hcnt gc r hF
        show cnt r = _
        rw [h1, ← sum_map_const_one (((db.contributions.filter bf)).filter
          (fun x => x.contributor_id == gc.id)), List.sum_eq_foldr]
    · refine (foldr_op_groups (· + ·) 0 (fun x y z => Nat.add_assoc x y z)
        (fun x y => Nat.add_comm x y) (fun m => Nat.zero_add m)
        db.contributors (fun c => c.id) (db.contributions.filter bf)
        (fun c => c.contributor_id) (fun _ => (1 : Nat)) hndC hri').trans ?_
      rw [← List.sum_eq_foldr, sum_map_const_one]
  · -- MIN(first_contribution_date) over view rows = MIN(contribution_date)
    refine (foldr_op_filterMap omin none omin_none_left db.contributors F fd
      (fun gc => (((db.contributions.filter bf).filter
        (fun x => x.contributor_id == gc.id)).map
          (fun c => some c.contribution_date)).foldr omin none)
      ?_).trans ?_
    · intro gc _
      cases hF : F gc with
      | none =>
        have hnil := (hFnone gc).mp hF
        simp [hnil]
      | some r =>
        have h1 := hfd gc r hF
        show fd r = _
        rw [h1, listMinO_eq_foldr, List.map_map]
        rfl
    · refine (foldr_op_groups omin none omin_assoc omin_comm omin_none_left
        db.contributors (fun c => c.id) (db.contributions.filter bf)
        (fun c => c.contributor_id) (fun c => some c.contribution_date) hndC hri').trans ?_
      rw [listMinO_eq_foldr, List.map_map]
      rfl
  · -- MAX(last_contribution_date) over view rows = MAX(contribution_date)
    refine (foldr_op_filterMap omax none omax_none_left db.contributors F ld
      (fun gc => (((db.contributions.filter bf).filter
        (fun x => x.contributor_id == gc.id)).map
          (fun c => some c.contribution_date)).foldr omax none)
      ?_).trans ?_
    · intro gc _
      cases hF : F gc with
      | none =>
        have hnil := (hFnone gc).mp hF
        simp [hnil]
      | some r =>
        have h1 := hld gc r hF
        show ld r = _
        rw [h1, listMaxO_eq_foldr, List.map_map]
        rfl
    · refine (foldr_op_groups omax none omax_assoc omax_comm omax_none_left
        db.contributors (fun c => c.id) (db.contributions.filter bf)
        (fun c => c.contributor_id) (fun c => some c.contribution_date) hndC hri').trans ?_
      rw [listMaxO_eq_foldr, List.map_map]
      rfl

theorem candAggOpt_none_iff (db : DB) (cid : Nat) (gc : GoldContributor) :
    candAggOpt db cid gc = none ↔
      (db.contributions.filter (candContribFilter cid none none)).filter
        (fun x => x.contributor_id == gc.id) = [] := by
  rw [← group_filter_eq]
  unfold candAggOpt
  simp only []
  cases hcs : db.contributions.filter
      (fun x => candContribFilter cid none none x && x.contributor_id == gc.id) with
  | nil => simp
  | cons a t => simp

theorem candAggOpt_fields (db : DB) (cid : Nat) (gc : GoldContributor)
    (r : MvContributorCandidateStats) (h : candAggOpt db cid gc = some r) :
    r.total_amount = (((db.contributions.filter (candContribFilter cid none none)).filter
        (fun x => x.contributor_id == gc.id)).map (fun c => c.amount)).sum
  ∧ r.contribution_count = ((db.contributions.filter (candContribFilter cid none none)).filter
        (fun x => x.contributor_id == gc.id)).length
  ∧ r.first_contribution_date = listMinO
      (((db.contributions.filter (candContribFilter cid none none)).filter
        (fun x => x.contributor_id == gc.id)).map (fun c => c.contribution_date))
  ∧ r.last_contribution_date = listMaxO
      (((db.contributions.filter (candContribFilter cid none none)).filter
        (fun x => x.contributor_id == gc.id)).map (fun c => c.contribution_date)) := by
  rw [← group_filter_eq]
  unfold candAggOpt at h
  simp only [] at h
  split at h
  · exact absurd h (by simp)
  · rw [Option.some.injEq] at h
    rw [← h]
    exact ⟨rfl, rfl, rfl, rfl⟩

theorem commAggOpt_none_iff (db : DB) (cid : Nat) (gc : GoldContributor) :
    commAggOpt db cid gc = none ↔
      (db.contributions.filter (commContribFilter cid none none)).filter
        (fun x => x.contributor_id == gc.id) = [] := by
  rw [← group_filter_eq]
  unfold commAggOpt
  simp only []
  cases hcs : db.contributions.filter
      (fun x => commContribFilter cid none none x && x.contributor_id == gc.id) with
  | nil => simp
  | cons a t => simp

theorem commAggOpt_fields (db : DB) (cid : Nat) (gc : GoldContributor)
    (r : MvContributorCommitteeStats) (h : commAggOpt db cid gc = some r) :
    r.total_amount = (((db.contributions.filter (commContribFilter cid none none)).filter
        (fun x => x.contributor_id == gc.id)).map (fun c => c.amount)).sum
  ∧ r.contribution_count = ((db.contributions.filter (commContribFilter cid none none)).filter
        (fun x => x.contributor_id == gc.id)).length
  ∧ r.first_contribution_date = listMinO
      (((db.contributions.filter (commContribFilter cid none none)).filter
        (fun x => x.contributor_id == gc.id)).map (fun c => c.contribution_date))
  ∧ r.last_contribution_date = listMaxO
      (((db.contributions.filter (commContribFilter cid none none)).filter
        (fun x => x.contributor_id == gc.id)).map (fun c => c.contribution_date)) := by
  rw [← group_filter_eq]
  unfold commAggOpt at h
  simp only [] at h
  split at h
  · exact absurd h (by simp)
  · rw [Option.some.injEq] at h
    rw [← h]
    exact ⟨rfl, rfl, rfl, rfl⟩

theorem mvSummaryCand_eq_live (db : DB) (cid : Nat)
    (hndC : (db.contributors.map (fun c => c.id)).Nodup)
    (hndA : (db.candidates.map (fun c => c.id)).Nodup)
    (hri : ∀ x ∈ db.contributions, x.contributor_id ∈ db.contributors.map (fun c => c.id))
    (hcand : ∃ c ∈ db.candidates, c.id = cid)
    (hmvC : db.mv_contributor_candidate_stats = computeMvCand db) :
    mvSummaryCand db cid = liveSummary db (candContribFilter cid none none) := by
  have hblock : db.mv_contributor_candidate_stats.filter (fun r => r.candidate_id == cid)
      = db.contributors.filterMap (candAggOpt db cid) := by
    rw [hmvC]
    exact flatMap_candAgg_filter db db.candidates cid hndA hcand
  have hc := summary_components db (candContribFilter cid none none) (candAggOpt db cid)
    (fun r => r.total_amount) (fun r => r.contribution_count)
    (fun r => r.first_contribution_date) (fun r => r.last_contribution_date)
    hndC hri (candAggOpt_none_iff db cid)
    (fun gc r h => (candAggOpt_fields db cid gc r h).1)
    (fun gc r h => (candAggOpt_fields db cid gc r h).2.1)
    (fun gc r h => (candAggOpt_fields db cid gc r h).2.2.1)
    (fun gc r h => (candAggOpt_fields db cid gc r h).2.2.2)
  unfold mvSummaryCand liveSummary
  simp only [hblock]
  rw [ContributorsSummary.mk.injEq]
  exact ⟨hc.1, hc.2.1, hc.2.2.1, hc.2.2.2.1, hc.2.2.2.2⟩

theorem mvSummaryComm_eq_live (db : DB) (cid : Nat)
    (hndC : (db.contributors.map (fun c => c.id)).Nodup)
    (hndM : (db.committees.map (fun c => c.id)).Nodup)
    (hri : ∀ x ∈ db.contributions, x.contributor_id ∈ db.contributors.map (fun c => c.id))
    (hcomm : ∃ c ∈ db.committees, c.id = cid)
    (hmvM : db.mv_contributor_committee_stats = computeMvComm db) :
    mvSummaryComm db cid = liveSummary db (commContribFilter cid none none) := by
  have hblock : db.mv_contributor_committee_stats.filter (fun r => r.committee_id == cid)
      = db.contributors.filterMap (commAggOpt db cid) := by
    rw [hmvM]
    exact flatMap_commAgg_filter db db.committees cid hndM hcomm
  have hc := summary_components db (commContribFilter cid none none) (commAggOpt db cid)
    (fun r => r.total_amount) (fun r => r.contribution_count)
    (fun r => r.first_contribution_date) (fun r => r.last_contribution_date)
    hndC hri (commAggOpt_none_iff db cid)
    (fun gc r h => (commAggOpt_fields db cid gc r h).1)
    (fun gc r h => (commAggOpt_fields db cid gc r h).2.1)
    (fun gc r h => (commAggOpt_fields db cid gc r h).2.2.1)
    (fun gc r h => (commAggOpt_fields db cid gc r h).2.2.2)
  unfold mvSummaryComm liveSummary
  simp only [hblock]
  rw [ContributorsSummary.mk.injEq]
  exact ⟨hc.1, hc.2.1, hc.2.2.1, hc.2.2.2.1, hc.2.2.2.2⟩

/-- C2: over a database where each materialized view equals the
corresponding aggregation of the contributions table (and ids are unique
with referential integrity), the materialized-view branch and the
live-aggregation branch of `get_contributors_by_candidate` and of
`get_contributors_by_committee` produce equal results — same rows with the
same fields, same total count, same summary block — for every combination
of filter, sort and pagination arguments with no date bounds; the shared
response-assembly code then yields identical responses. -/
theorem C2_branch_refinement (db : DB) (cand_id comm_id : Nat) (a : ContributorsByArgs)
    (hdf : a.date_from = none) (hdt : a.date_to = none)
    (hndC : (db.contributors.map (fun c => c.id)).Nodup)
    (hndA : (db.candidates.map (fun c => c.id)).Nodup)
    (hndM : (db.committees.map (fun c => c.id)).Nodup)
    (hri : ∀ x ∈ db.contributions, x.contributor_id ∈ db.contributors.map (fun c => c.id))
    (hcand : ∃ c ∈ db.candidates, c.id = cand_id)
    (hcomm : ∃ c ∈ db.committees, c.id = comm_id)
    (hmvC : db.mv_contributor_candidate_stats = computeMvCand db)
    (hmvM : db.mv_contributor_committee_stats = computeMvComm db) :
    mvBranchCand db cand_id a
      = liveBranch db (candContribFilter cand_id a.date_from a.date_to)
          liveSortColumnMapCand a
  ∧ mvBranchComm db comm_id a
      = liveBranch db (commContribFilter comm_id a.date_from a.date_to)
          liveSortColumnMapComm a := by
  rw [hdf, hdt]
  constructor
  · simp only [mvBranchCand, liveBranch,
      mvJoinRowsCand_eq_live db cand_id hndC hndA hcand hmvC,
      mvSummaryCand_eq_live db cand_id hndC hndA hri hcand hmvC,
      show mvSortColumnMapCand = liveSortColumnMapCand from rfl]
  · simp only [mvBranchComm, liveBranch,
      mvJoinRowsComm_eq_live db comm_id hndC hndM hcomm hmvM,
      mvSummaryComm_eq_live db comm_id hndC hndM hri hcomm hmvM,
      show mvSortColumnMapComm = liveSortColumnMapComm from rfl]

theorem C2_witness :
    mvBranchCand dbMv 1 {}
      = liveBranch dbMv (candContribFilter 1 ({} : ContributorsByArgs).date_from
          ({} : ContributorsByArgs).date_to) liveSortColumnMapCand {}
  ∧ mvBranchComm dbMv 5 {}
      = liveBranch dbMv (commContribFilter 5 ({} : ContributorsByArgs).date_from
          ({} : ContributorsByArgs).date_to) liveSortColumnMapComm {} :=
  C2_branch_refinement dbMv 1 5 {} rfl rfl (by decide) (by decide) (by decide)
    (by decide) (by decide) (by decide) rfl rfl
